import Mathlib

/-!
# CDS handling of the xDS v2 client (`xds/internal/client/cds.go`)

A shallow embedding of `validateCluster` and `handleCDSResponse`, followed by
the properties of the response handler: atomic abort, full cache replacement,
callback delivery and the watch life cycle.

Conventions of the embedding.
* A Go pointer to a protobuf message is an `Option`; the generated getters are
  nil-safe and are embedded as functions on `Option`.
* A protobuf `oneof` is an inductive type with one constructor per variant and
  `unset` for the nil interface.
* A Go `map[K]V` is a total function `K → Option V`; two maps are equal when
  they hold the same entries.
* The effects the handler has on objects outside the client (the expiry timer,
  the watcher callback) are recorded, in order, as a list of `Event`s.
* The text of an error is not modelled, only which `fmt.Errorf` produced it.
-/

namespace XdsClient

/-! ## Protobuf messages read by the handler -/

/-- The enum `Cluster.DiscoveryType` (an `int32`). -/
abbrev Cluster_DiscoveryType := Int

@[reducible] def Cluster_STATIC : Cluster_DiscoveryType := 0
@[reducible] def Cluster_STRICT_DNS : Cluster_DiscoveryType := 1
@[reducible] def Cluster_LOGICAL_DNS : Cluster_DiscoveryType := 2
@[reducible] def Cluster_EDS : Cluster_DiscoveryType := 3
@[reducible] def Cluster_ORIGINAL_DST : Cluster_DiscoveryType := 4

/-- The enum `Cluster.LbPolicy` (an `int32`). -/
abbrev Cluster_LbPolicy := Int

@[reducible] def Cluster_ROUND_ROBIN : Cluster_LbPolicy := 0
@[reducible] def Cluster_LEAST_REQUEST : Cluster_LbPolicy := 1
@[reducible] def Cluster_RING_HASH : Cluster_LbPolicy := 2
@[reducible] def Cluster_RANDOM : Cluster_LbPolicy := 3

/-- The empty message `core.AggregatedConfigSource`. -/
structure AggregatedConfigSource where
  deriving DecidableEq, Repr

/-- The empty message `core.SelfConfigSource`. -/
structure SelfConfigSource where
  deriving DecidableEq, Repr

/-- The oneof `config_source_specifier` of `core.ConfigSource`. The wrapper of a
message-typed variant holds a pointer, which may itself be nil. -/
inductive ConfigSourceSpecifier where
  | unset
  | path (p : String)
  | apiConfigSource
  | ads (a : Option AggregatedConfigSource)
  | self (s : Option SelfConfigSource)
  deriving DecidableEq, Repr

/-- The message `core.ConfigSource`. -/
structure ConfigSource where
  ConfigSourceSpecifier : ConfigSourceSpecifier
  deriving DecidableEq, Repr

/-- The message `Cluster.EdsClusterConfig`. -/
structure EdsClusterConfig where
  EdsConfig : Option ConfigSource
  ServiceName : String
  deriving DecidableEq, Repr

/-- The oneof `cluster_discovery_type` of `Cluster`. -/
inductive ClusterDiscoveryType where
  | unset
  | type (t : Cluster_DiscoveryType)
  | clusterType (name : String)
  deriving DecidableEq, Repr

/-- The fields of the message `Cluster` that the CDS handler reads. -/
structure Cluster where
  Name : String
  ClusterDiscoveryType : ClusterDiscoveryType
  EdsClusterConfig : Option EdsClusterConfig
  LbPolicy : Cluster_LbPolicy
  LrsServer : Option ConfigSource
  deriving DecidableEq, Repr

/-- Getter `(*ConfigSource).GetAds`. -/
def ConfigSource.GetAds (m : Option ConfigSource) : Option AggregatedConfigSource :=
  match m with
  | some x =>
    match x.ConfigSourceSpecifier with
    | .ads a => a
    | _ => none
  | none => none

/-- Getter `(*ConfigSource).GetSelf`. -/
def ConfigSource.GetSelf (m : Option ConfigSource) : Option SelfConfigSource :=
  match m with
  | some x =>
    match x.ConfigSourceSpecifier with
    | .self s => s
    | _ => none
  | none => none

/-- Getter `(*Cluster_EdsClusterConfig).GetEdsConfig`. -/
def EdsClusterConfig.GetEdsConfig (m : Option EdsClusterConfig) : Option ConfigSource :=
  match m with
  | some x => x.EdsConfig
  | none => none

/-- Getter `(*Cluster_EdsClusterConfig).GetServiceName`. -/
def EdsClusterConfig.GetServiceName (m : Option EdsClusterConfig) : String :=
  match m with
  | some x => x.ServiceName
  | none => ""

/-- Getter `(*Cluster).GetName`. -/
def Cluster.GetName (m : Option Cluster) : String :=
  match m with
  | some x => x.Name
  | none => ""

/-- Getter `(*Cluster).GetType`: the enum of the oneof when it is the `type`
variant, `STATIC` otherwise. -/
def Cluster.GetType (m : Option Cluster) : Cluster_DiscoveryType :=
  match m with
  | some x =>
    match x.ClusterDiscoveryType with
    | .type t => t
    | _ => Cluster_STATIC
  | none => Cluster_STATIC

/-- Getter `(*Cluster).GetEdsClusterConfig`. -/
def Cluster.GetEdsClusterConfig (m : Option Cluster) : Option XdsClient.EdsClusterConfig :=
  match m with
  | some x => x.EdsClusterConfig
  | none => none

/-- Getter `(*Cluster).GetLbPolicy`. -/
def Cluster.GetLbPolicy (m : Option Cluster) : Cluster_LbPolicy :=
  match m with
  | some x => x.LbPolicy
  | none => Cluster_ROUND_ROBIN

/-- Getter `(*Cluster).GetLrsServer`. -/
def Cluster.GetLrsServer (m : Option Cluster) : Option ConfigSource :=
  match m with
  | some x => x.LrsServer
  | none => none

/-- A decoded protobuf message, as held by `ptypes.DynamicAny.Message`: a
`*Cluster`, or a message of some other registered type. -/
inductive Message where
  | cluster (c : Cluster)
  | other (typeName : String)
  deriving DecidableEq, Repr

/-- A resource envelope (`*any.Any`). Its bytes are abstracted to what decoding
them yields: nothing (unknown type URL or malformed payload), or a message. -/
inductive AnyResource where
  | undecodable
  | message (m : Message)
  deriving DecidableEq, Repr

/-- The call `ptypes.UnmarshalAny(r, &resource)` on a fresh `DynamicAny`:
`none` is a non-nil error, `some m` leaves `m` in `resource.Message`. -/
def UnmarshalAny (r : AnyResource) : Option Message :=
  match r with
  | .undecodable => none
  | .message m => some m

/-- The message `DiscoveryResponse`. -/
structure DiscoveryResponse where
  VersionInfo : String
  Resources : List AnyResource
  TypeUrl : String
  Nonce : String
  deriving DecidableEq, Repr

/-- Getter `(*DiscoveryResponse).GetResources`. -/
def DiscoveryResponse.GetResources (m : Option DiscoveryResponse) : List AnyResource :=
  match m with
  | some x => x.Resources
  | none => []

/-! ## Client state -/

/-- The errors built in `cds.go`, one constructor per `fmt.Errorf`. -/
inductive CDSError where
  | noCDSWatcher
  | unmarshalFailed
  | unexpectedResourceType
  | unexpectedClusterType
  | unexpectedEdsConfig
  | unexpectedLbPolicy
  | targetNotFound
  deriving DecidableEq, Repr

/-- The struct `cdsUpdate`. -/
structure cdsUpdate where
  serviceName : String
  doLRS : Bool
  deriving DecidableEq, Repr

/-- The keys of `v2Client.watchMap`. -/
inductive resourceType where
  | ldsResource
  | rdsResource
  | cdsResource
  | edsResource
  deriving DecidableEq, Repr

/-- A watcher callback of type `cdsCallback`. The closure is opaque: only its
identity is kept, and each invocation is recorded as an `Event`. -/
structure cdsCallback where
  id : Nat
  deriving DecidableEq, Repr

/-- Modelled from the spec: the struct `watchInfo` is declared outside `cds.go`.
A watch entry holds the ordered list of target resource names and the callback;
its expiry timer is an external object, reached only through `stopTimer`. The
entry stored under `cdsResource` carries a `cdsCallback`. -/
structure watchInfo where
  target : List String
  callback : cdsCallback
  deriving DecidableEq, Repr

/-- The Go map `map[string]cdsUpdate`. -/
abbrev cdsCacheMap := String → Option cdsUpdate

/-- The call `make(map[string]cdsUpdate)`. -/
def emptyCache : cdsCacheMap := fun _ => none

/-- The assignment `m[k] = u`. -/
def cacheSet (m : cdsCacheMap) (k : String) (u : cdsUpdate) : cdsCacheMap :=
  fun x => if x = k then some u else m x

/-- The fields of `v2Client` that `cds.go` uses. The node identity is opaque. -/
structure v2Client where
  nodeProto : String
  watchMap : resourceType → Option watchInfo
  cdsCache : cdsCacheMap

/-- An effect of the handler on an object outside the client state. -/
inductive Event where
  | stopTimer
  | callback (cb : cdsCallback) (update : cdsUpdate) (err : Option CDSError)
  deriving DecidableEq, Repr

/-- How a call of the handler ends: it returns its `error`, or it faults with a
run-time panic (index out of range). -/
inductive Ret where
  | returned (err : Option CDSError)
  | panicked
  deriving DecidableEq, Repr

/-- The result of one call of the handler: the client state it leaves, the
effects it had, and how it ended. -/
structure Outcome where
  client : v2Client
  events : List Event
  ret : Ret

/-! ## `validateCluster` -/

/-- The function `validateCluster`, returning the pair `(cdsUpdate, error)`. -/
def validateCluster (cluster : Option Cluster) : cdsUpdate × Option CDSError :=
  let emptyUpdate : cdsUpdate := { serviceName := "", doLRS := false }
  if Cluster.GetType cluster ≠ Cluster_EDS then
    (emptyUpdate, some .unexpectedClusterType)
  else if ConfigSource.GetAds
      (EdsClusterConfig.GetEdsConfig (Cluster.GetEdsClusterConfig cluster)) = none then
    (emptyUpdate, some .unexpectedEdsConfig)
  else if Cluster.GetLbPolicy cluster ≠ Cluster_ROUND_ROBIN then
    (emptyUpdate, some .unexpectedLbPolicy)
  else
    ({ serviceName := EdsClusterConfig.GetServiceName (Cluster.GetEdsClusterConfig cluster),
       doLRS := decide (ConfigSource.GetSelf (Cluster.GetLrsServer cluster) ≠ none) },
     none)

/-! ## `handleCDSResponse` -/

/-- How the `for` loop over the resources ends. -/
inductive LoopResult where
  | done (returnUpdate : cdsUpdate) (localCache : cdsCacheMap)
  | failed (err : CDSError)
  | fault

/-- The loop of `handleCDSResponse` over `resp.GetResources()`, carrying the
variables `returnUpdate` and `localCache`. -/
def cdsLoop (wi : watchInfo) :
    List AnyResource → cdsUpdate → cdsCacheMap → LoopResult
  | [], returnUpdate, localCache => .done returnUpdate localCache
  | r :: rest, returnUpdate, localCache =>
    match UnmarshalAny r with
    | none => .failed .unmarshalFailed
    | some (.other _) => .failed .unexpectedResourceType
    | some (.cluster cluster) =>
      match validateCluster (some cluster) with
      | (_, some err) => .failed err
      | (update, none) =>
        let update : cdsUpdate :=
          if update.serviceName = "" then
            { update with serviceName := Cluster.GetName (some cluster) }
          else update
        let localCache := cacheSet localCache (Cluster.GetName (some cluster)) update
        match wi.target[0]? with
        | none => .fault
        | some t0 =>
          let returnUpdate :=
            if Cluster.GetName (some cluster) = t0 then update else returnUpdate
          cdsLoop wi rest returnUpdate localCache

/-- The method `handleCDSResponse`. The mutex only serialises calls and is not
modelled. -/
def handleCDSResponse (v2c : v2Client) (resp : Option DiscoveryResponse) : Outcome :=
  match v2c.watchMap .cdsResource with
  | none => { client := v2c, events := [], ret := .returned (some .noCDSWatcher) }
  | some wi =>
    match cdsLoop wi (DiscoveryResponse.GetResources resp)
        { serviceName := "", doLRS := false } emptyCache with
    | .failed err => { client := v2c, events := [], ret := .returned (some err) }
    | .fault => { client := v2c, events := [], ret := .panicked }
    | .done returnUpdate localCache =>
      let err : Option CDSError :=
        if returnUpdate.serviceName = "" then some .targetNotFound else none
      { client := { v2c with cdsCache := localCache },
        events := [.stopTimer, .callback wi.callback returnUpdate err],
        ret := .returned none }

/-! ## `newCDSRequest` and `sendCDS` -/

/-- Modelled from the spec: the constant `clusterURL` is declared outside
`cds.go`. It is the protocol-defined type identifier string of the cluster
resource kind; no property depends on its value. -/
def clusterURL : String := "type.googleapis.com/envoy.api.v2.Cluster"

/-- The message `DiscoveryRequest`. -/
structure DiscoveryRequest where
  VersionInfo : String
  Node : String
  ResourceNames : List String
  TypeUrl : String
  ResponseNonce : String
  deriving DecidableEq, Repr

/-- The method `newCDSRequest`, in state-passing form: the client state after
the call and the request returned. The body assigns to no field. -/
def newCDSRequest (v2c : v2Client) (clusterName : List String) : v2Client × DiscoveryRequest :=
  (v2c,
   { VersionInfo := ""
     Node := v2c.nodeProto
     ResourceNames := clusterName
     TypeUrl := clusterURL
     ResponseNonce := "" })

/-- An error reported by the transport of a stream. -/
structure StreamError where
  msg : String
  deriving DecidableEq, Repr

/-- Modelled from the spec: the stream type `adsStream` is declared outside
`cds.go`. An outbound stream is the list of requests handed to `Send` so far,
together with the transport's answer to a `Send` (given what was sent before
and the request): `none` for success, an error otherwise. -/
structure adsStream where
  sent : List DiscoveryRequest
  answer : List DiscoveryRequest → DiscoveryRequest → Option StreamError

/-- The call `stream.Send(req)`: one write on the stream, and its error. -/
def adsStream.Send (stream : adsStream) (req : DiscoveryRequest) :
    adsStream × Option StreamError :=
  ({ stream with sent := stream.sent ++ [req] }, stream.answer stream.sent req)

/-- The result of `sendCDS`: the client and the stream after the call, the
boolean returned, and the number of warnings logged. -/
structure SendOutcome where
  client : v2Client
  stream : adsStream
  ok : Bool
  warnings : Nat

/-- The method `sendCDS`. -/
def sendCDS (v2c : v2Client) (stream : adsStream) (clusterName : List String) : SendOutcome :=
  let built := newCDSRequest v2c clusterName
  let sentOut := stream.Send built.2
  match sentOut.2 with
  | some _ => { client := built.1, stream := sentOut.1, ok := false, warnings := 1 }
  | none => { client := built.1, stream := sentOut.1, ok := true, warnings := 0 }

/-! ## Vocabulary of the properties -/

/-- The cluster a resource envelope stands for when the loop body gets past its
checks: the envelope unwraps to a `Cluster` and `validateCluster` accepts it. -/
def acceptedCluster (r : AnyResource) : Option Cluster :=
  match UnmarshalAny r with
  | some (.cluster c) => if (validateCluster (some c)).2 = none then some c else none
  | _ => none

/-- The update the loop stores for an accepted cluster: the validated update,
with the cluster name standing in for an empty service name. -/
def resolvedUpdate (c : Cluster) : cdsUpdate :=
  if (validateCluster (some c)).1.serviceName = "" then
    { (validateCluster (some c)).1 with serviceName := c.Name }
  else (validateCluster (some c)).1

/-- The last cluster of a list that carries the given name. -/
def lastNamed (name : String) : List Cluster → Option Cluster
  | [] => none
  | c :: cs =>
    match lastNamed name cs with
    | some d => some d
    | none => if c.Name = name then some c else none

/-- One pass of the loop body over an accepted cluster, on the pair
`(returnUpdate, localCache)`. -/
def loopStep (t0 : String) (acc : cdsUpdate × cdsCacheMap) (c : Cluster) :
    cdsUpdate × cdsCacheMap :=
  (if c.Name = t0 then resolvedUpdate c else acc.1, cacheSet acc.2 c.Name (resolvedUpdate c))

/-- The number of callback invocations in a trace. -/
def callbackCount (evs : List Event) : Nat :=
  (evs.filter fun e => match e with
    | .callback _ _ _ => true
    | .stopTimer => false).length

/-- A sequence of responses handled one after the other, with no registration
in between: the client state is threaded through and the effects accumulate. A
fault ends the run. -/
def handleAll (v2c : v2Client) : List (Option DiscoveryResponse) → v2Client × List Event
  | [] => (v2c, [])
  | resp :: rest =>
    match (handleCDSResponse v2c resp).ret with
    | .panicked => ((handleCDSResponse v2c resp).client, (handleCDSResponse v2c resp).events)
    | .returned _ =>
      ((handleAll (handleCDSResponse v2c resp).client rest).1,
       (handleCDSResponse v2c resp).events ++
         (handleAll (handleCDSResponse v2c resp).client rest).2)

/-! ## Sample inputs -/

/-- A cluster that `validateCluster` accepts. -/
def edsCluster (name serviceName : String) (lrs : Bool) : Cluster :=
  { Name := name
    ClusterDiscoveryType := .type Cluster_EDS
    EdsClusterConfig := some
      { EdsConfig := some { ConfigSourceSpecifier := .ads (some {}) }
        ServiceName := serviceName }
    LbPolicy := Cluster_ROUND_ROBIN
    LrsServer := if lrs then some { ConfigSourceSpecifier := .self (some {}) } else none }

/-- A cluster of type `STATIC`, which `validateCluster` rejects. -/
def staticCluster (name : String) : Cluster :=
  { Name := name
    ClusterDiscoveryType := .type Cluster_STATIC
    EdsClusterConfig := none
    LbPolicy := Cluster_ROUND_ROBIN
    LrsServer := none }

/-- The envelope of a cluster. -/
def envelope (c : Cluster) : AnyResource := .message (.cluster c)

/-- A response carrying the given envelopes. -/
def responseOf (rs : List AnyResource) : Option DiscoveryResponse :=
  some { VersionInfo := "1", Resources := rs, TypeUrl := "", Nonce := "" }

/-- A client whose only watch is a CDS watch with the given targets. -/
def clientWatching (targets : List String) (cache : cdsCacheMap) : v2Client :=
  { nodeProto := "node"
    watchMap := fun k =>
      if k = .cdsResource then some { target := targets, callback := { id := 1 } } else none
    cdsCache := cache }

/-- A client with no watch at all. -/
def clientIdle (cache : cdsCacheMap) : v2Client :=
  { nodeProto := "node", watchMap := fun _ => none, cdsCache := cache }

/-- A cache with one stale entry. -/
def staleCache : cdsCacheMap :=
  cacheSet emptyCache "old" { serviceName := "old-service", doLRS := true }

/-- The arguments of the callback invocations of a trace, in order. -/
def callbackArgs : List Event → List (cdsUpdate × Option CDSError)
  | [] => []
  | .stopTimer :: rest => callbackArgs rest
  | .callback _ update err :: rest => (update, err) :: callbackArgs rest

/-- A stream that has sent nothing and whose transport accepts every request. -/
def streamUp : adsStream := { sent := [], answer := fun _ _ => none }

/-- A stream that has sent nothing and whose transport refuses every request. -/
def streamDown : adsStream :=
  { sent := [], answer := fun _ _ => some { msg := "transport is closing" } }

/-! ## Lemmas on the loop -/

theorem acceptedCluster_eq_some {r : AnyResource} {c : Cluster}
    (h : acceptedCluster r = some c) :
    r = .message (.cluster c) ∧ (validateCluster (some c)).2 = none := by
  unfold acceptedCluster UnmarshalAny at h
  cases r with
  | undecodable => simp at h
  | message m =>
    cases m with
    | other t => simp at h
    | cluster d =>
      simp only at h
      split at h
      · rename_i hv
        simp only [Option.some.injEq] at h
        subst h
        exact ⟨rfl, hv⟩
      · simp at h

theorem validateCluster_fst_of_err {cluster : Option Cluster}
    (h : (validateCluster cluster).2 ≠ none) :
    (validateCluster cluster).1 = { serviceName := "", doLRS := false } := by
  unfold validateCluster at h ⊢
  split_ifs at h ⊢ <;> simp_all

theorem cdsLoop_cons_accepted (wi : watchInfo) (t0 : String) (h0 : wi.target[0]? = some t0)
    (r : AnyResource) (c : Cluster) (hr : acceptedCluster r = some c)
    (rest : List AnyResource) (ru : cdsUpdate) (lc : cdsCacheMap) :
    cdsLoop wi (r :: rest) ru lc =
      cdsLoop wi rest (loopStep t0 (ru, lc) c).1 (loopStep t0 (ru, lc) c).2 := by
  obtain ⟨rfl, hv⟩ := acceptedCluster_eq_some hr
  rw [cdsLoop]
  simp only [UnmarshalAny]
  have hsplit : validateCluster (some c) = ((validateCluster (some c)).1, none) := by
    rw [← hv]
  rw [hsplit]
  simp only [h0, loopStep, resolvedUpdate, Cluster.GetName]


theorem cdsLoop_allAccepted (wi : watchInfo) (t0 : String) (h0 : wi.target[0]? = some t0) :
    ∀ (rs : List AnyResource) (ru : cdsUpdate) (lc : cdsCacheMap),
      (∀ r ∈ rs, (acceptedCluster r).isSome = true) →
      cdsLoop wi rs ru lc =
        .done ((rs.filterMap acceptedCluster).foldl (loopStep t0) (ru, lc)).1
          ((rs.filterMap acceptedCluster).foldl (loopStep t0) (ru, lc)).2 := by
  intro rs
  induction rs with
  | nil => intro ru lc _; simp [cdsLoop]
  | cons r rest ih =>
    intro ru lc hall
    have hr : (acceptedCluster r).isSome = true := hall r (List.mem_cons_self r rest)
    obtain ⟨c, hc⟩ := Option.isSome_iff_exists.mp hr
    rw [cdsLoop_cons_accepted wi t0 h0 r c hc rest ru lc,
      ih _ _ (fun x hx => hall x (List.mem_cons_of_mem r hx))]
    simp [List.filterMap_cons, hc]

theorem foldl_loopStep_cache (t0 : String) :
    ∀ (cs : List Cluster) (ru : cdsUpdate) (lc : cdsCacheMap) (k : String),
      (cs.foldl (loopStep t0) (ru, lc)).2 k =
        match lastNamed k cs with
        | some c => some (resolvedUpdate c)
        | none => lc k := by
  intro cs
  induction cs with
  | nil => intro ru lc k; simp [lastNamed]
  | cons c cs ih =>
    intro ru lc k
    rw [List.foldl_cons]
    have := ih (loopStep t0 (ru, lc) c).1 (loopStep t0 (ru, lc) c).2 k
    rw [this, lastNamed]
    cases hl : lastNamed k cs with
    | some d => simp
    | none =>
      simp only [loopStep, cacheSet]
      by_cases hk : c.Name = k
      · simp [hk]
      · have hk2 : ¬ k = c.Name := fun h => hk h.symm
        simp [hk, hk2]

theorem foldl_loopStep_returnUpdate (t0 : String) :
    ∀ (cs : List Cluster) (ru : cdsUpdate) (lc : cdsCacheMap),
      (cs.foldl (loopStep t0) (ru, lc)).1 =
        match lastNamed t0 cs with
        | some c => resolvedUpdate c
        | none => ru := by
  intro cs
  induction cs with
  | nil => intro ru lc; simp [lastNamed]
  | cons c cs ih =>
    intro ru lc
    rw [List.foldl_cons]
    have := ih (loopStep t0 (ru, lc) c).1 (loopStep t0 (ru, lc) c).2
    rw [this, lastNamed]
    cases hl : lastNamed t0 cs with
    | some d => simp
    | none =>
      simp only [loopStep]
      by_cases hk : c.Name = t0
      · simp [hk]
      · simp [hk]

theorem cdsLoop_rejected (wi : watchInfo) :
    ∀ (rs : List AnyResource) (ru : cdsUpdate) (lc : cdsCacheMap),
      (∃ r ∈ rs, acceptedCluster r = none) →
      (∃ e, cdsLoop wi rs ru lc = .failed e) ∨
        (wi.target = [] ∧ cdsLoop wi rs ru lc = .fault) := by
  intro rs
  induction rs with
  | nil => intro ru lc h; simp at h
  | cons r rest ih =>
    intro ru lc h
    cases hr : acceptedCluster r with
    | none =>
      left
      unfold acceptedCluster at hr
      rw [cdsLoop]
      cases hu : UnmarshalAny r with
      | none => exact ⟨_, rfl⟩
      | some m =>
        cases m with
        | other t => exact ⟨_, rfl⟩
        | cluster c =>
          rw [hu] at hr
          simp only at hr
          split at hr
          · simp at hr
          · rename_i hv
            cases he : (validateCluster (some c)).2 with
            | none => exact absurd he hv
            | some e =>
              refine ⟨e, ?_⟩
              have hsplit : validateCluster (some c) = ((validateCluster (some c)).1, some e) := by
                rw [← he]
              simp only
              rw [hsplit]
    | some c =>
      have hrest : ∃ x ∈ rest, acceptedCluster x = none := by
        obtain ⟨x, hx, hxn⟩ := h
        rcases List.mem_cons.mp hx with rfl | hx
        · rw [hr] at hxn; cases hxn
        · exact ⟨x, hx, hxn⟩
      cases ht : wi.target with
      | nil =>
        right
        refine ⟨rfl, ?_⟩
        obtain ⟨rfl, hv⟩ := acceptedCluster_eq_some hr
        rw [cdsLoop]
        simp only [UnmarshalAny]
        have hsplit : validateCluster (some c) = ((validateCluster (some c)).1, none) := by
          rw [← hv]
        rw [hsplit]
        simp [ht]
      | cons t0 ts =>
        have h0 : wi.target[0]? = some t0 := by simp [ht]
        rw [cdsLoop_cons_accepted wi t0 h0 r c hr rest ru lc]
        rcases ih _ _ hrest with h1 | ⟨h2, _⟩
        · exact Or.inl h1
        · rw [ht] at h2; cases h2


theorem lastNamed_eq_some {k : String} :
    ∀ {cs : List Cluster} {c : Cluster}, lastNamed k cs = some c → c ∈ cs ∧ c.Name = k := by
  intro cs
  induction cs with
  | nil => intro c h; simp [lastNamed] at h
  | cons d cs ih =>
    intro c h
    rw [lastNamed] at h
    cases hl : lastNamed k cs with
    | some e =>
      rw [hl] at h
      simp only [Option.some.injEq] at h
      subst h
      exact ⟨List.mem_cons_of_mem d (ih hl).1, (ih hl).2⟩
    | none =>
      rw [hl] at h
      simp only at h
      split_ifs at h with hd
      simp only [Option.some.injEq] at h
      subst h
      exact ⟨List.mem_cons_self _ _, hd⟩

theorem lastNamed_eq_none {k : String} :
    ∀ {cs : List Cluster}, lastNamed k cs = none ↔ ∀ c ∈ cs, c.Name ≠ k := by
  intro cs
  induction cs with
  | nil => simp [lastNamed]
  | cons d cs ih =>
    rw [lastNamed]
    cases hl : lastNamed k cs with
    | some e =>
      have he := lastNamed_eq_some hl
      simp only [false_iff, reduceCtorEq]
      intro hall
      exact hall e (List.mem_cons_of_mem d he.1) he.2
    | none =>
      have hcs := ih.mp hl
      simp only [List.mem_cons, forall_eq_or_imp]
      constructor
      · intro h
        split_ifs at h with hd
        exact ⟨hd, hcs⟩
      · intro h
        simp [h.1]

theorem lastNamed_append_cons {k : String} (pre post : List Cluster) (c : Cluster)
    (hc : c.Name = k) (hpost : ∀ d ∈ post, d.Name ≠ k) :
    lastNamed k (pre ++ c :: post) = some c := by
  induction pre with
  | nil =>
    simp only [List.nil_append]
    rw [lastNamed, lastNamed_eq_none.mpr hpost]
    simp [hc]
  | cons d pre ih =>
    simp only [List.cons_append]
    rw [lastNamed, ih]


/-- What the handler does on a response all of whose envelopes are accepted,
for a watch with a first target. -/
theorem handleCDSResponse_allAccepted (v2c : v2Client) (resp : Option DiscoveryResponse)
    (wi : watchInfo) (t0 : String)
    (hw : v2c.watchMap .cdsResource = some wi) (h0 : wi.target[0]? = some t0)
    (hall : ∀ r ∈ DiscoveryResponse.GetResources resp, (acceptedCluster r).isSome = true) :
    (handleCDSResponse v2c resp).ret = .returned none ∧
    (∀ k, (handleCDSResponse v2c resp).client.cdsCache k =
      (lastNamed k ((DiscoveryResponse.GetResources resp).filterMap acceptedCluster)).map
        resolvedUpdate) ∧
    (handleCDSResponse v2c resp).client.watchMap = v2c.watchMap ∧
    (handleCDSResponse v2c resp).events =
      [.stopTimer,
       .callback wi.callback
        (match lastNamed t0 ((DiscoveryResponse.GetResources resp).filterMap acceptedCluster) with
          | some c => resolvedUpdate c
          | none => { serviceName := "", doLRS := false })
        (if (match lastNamed t0
              ((DiscoveryResponse.GetResources resp).filterMap acceptedCluster) with
            | some c => resolvedUpdate c
            | none => ({ serviceName := "", doLRS := false } : cdsUpdate)).serviceName = ""
         then some .targetNotFound else none)] := by
  have hloop := cdsLoop_allAccepted wi t0 h0 (DiscoveryResponse.GetResources resp)
    { serviceName := "", doLRS := false } emptyCache hall
  unfold handleCDSResponse
  rw [hw]
  simp only [hloop]
  refine ⟨trivial, ?_, trivial, ?_⟩
  · intro k
    rw [foldl_loopStep_cache]
    cases lastNamed k ((DiscoveryResponse.GetResources resp).filterMap acceptedCluster) <;>
      simp [emptyCache]
  · rw [foldl_loopStep_returnUpdate]

theorem resolvedUpdate_serviceName (c : Cluster) (h : (validateCluster (some c)).2 = none) :
    (resolvedUpdate c).serviceName =
      (if EdsClusterConfig.GetServiceName (Cluster.GetEdsClusterConfig (some c)) = "" then c.Name
       else EdsClusterConfig.GetServiceName (Cluster.GetEdsClusterConfig (some c))) ∧
    (resolvedUpdate c).doLRS = (validateCluster (some c)).1.doLRS := by
  have hs : (validateCluster (some c)).1.serviceName =
      EdsClusterConfig.GetServiceName (Cluster.GetEdsClusterConfig (some c)) := by
    unfold validateCluster at h ⊢
    split_ifs at h ⊢
    rfl
  unfold resolvedUpdate
  rw [hs]
  split_ifs
  all_goals simp [hs]


/-! ## The validator -/

theorem validateCluster_err_none_iff (cluster : Option Cluster) :
    (validateCluster cluster).2 = none ↔
      ∃ c ecc cs a, cluster = some c ∧
        c.ClusterDiscoveryType = .type Cluster_EDS ∧
        c.EdsClusterConfig = some ecc ∧ ecc.EdsConfig = some cs ∧
        cs.ConfigSourceSpecifier = .ads (some a) ∧
        c.LbPolicy = Cluster_ROUND_ROBIN := by
  constructor
  · intro h
    unfold validateCluster at h
    split_ifs at h with h1 h2 h3
    cases cluster with
    | none => exact absurd (by simp [Cluster.GetType]) h1
    | some c =>
      obtain ⟨name, cdt, ecc, lb, lrs⟩ := c
      cases cdt with
      | unset => exact absurd (by simp [Cluster.GetType]) h1
      | clusterType n => exact absurd (by simp [Cluster.GetType]) h1
      | type t =>
        have ht : t = Cluster_EDS := by
          simpa [Cluster.GetType] using h1
        have hlb : lb = Cluster_ROUND_ROBIN := by
          simpa [Cluster.GetLbPolicy] using h3
        cases ecc with
        | none => exact absurd rfl h2
        | some e =>
          obtain ⟨ec, sn⟩ := e
          cases ec with
          | none => exact absurd rfl h2
          | some cs =>
            obtain ⟨spec⟩ := cs
            cases spec with
            | unset => exact absurd rfl h2
            | path p => exact absurd rfl h2
            | apiConfigSource => exact absurd rfl h2
            | self s => exact absurd rfl h2
            | ads a =>
              cases a with
              | none => exact absurd rfl h2
              | some a =>
                exact ⟨_, _, _, a, rfl, by rw [ht], rfl, rfl, rfl, hlb⟩
  · rintro ⟨c, ecc, cs, a, rfl, h1, h2, h3, h4, h5⟩
    simp [validateCluster, Cluster.GetType, Cluster.GetEdsClusterConfig, Cluster.GetLbPolicy,
      EdsClusterConfig.GetEdsConfig, ConfigSource.GetAds, h1, h2, h3, h4, h5]

/-- C2. `validateCluster` returns a nil error exactly for a cluster whose
discovery type is EDS, whose `EdsClusterConfig.EdsConfig` carries a non-nil Ads
source and whose LbPolicy is ROUND_ROBIN; whenever the error is non-nil the
returned update is the zero update (serviceName "", doLRS false). -/
theorem validateCluster_nil_iff (cluster : Option Cluster) :
    ((validateCluster cluster).2 = none ↔
      ∃ c ecc cs a, cluster = some c ∧
        c.ClusterDiscoveryType = .type Cluster_EDS ∧
        c.EdsClusterConfig = some ecc ∧ ecc.EdsConfig = some cs ∧
        cs.ConfigSourceSpecifier = .ads (some a) ∧
        c.LbPolicy = Cluster_ROUND_ROBIN) ∧
    ((validateCluster cluster).2 ≠ none →
      (validateCluster cluster).1 = { serviceName := "", doLRS := false }) :=
  ⟨validateCluster_err_none_iff cluster, validateCluster_fst_of_err⟩

/-- C3. For every cluster that `validateCluster` accepts, the returned update
has the service name of the cluster's `EdsClusterConfig` exactly as given (the
cluster's own name is never substituted) and doLRS true exactly when the
cluster's `LrsServer` carries a non-nil Self source. -/
theorem validateCluster_accepted_update (cluster : Option Cluster)
    (h : (validateCluster cluster).2 = none) :
    (∃ c ecc, cluster = some c ∧ c.EdsClusterConfig = some ecc ∧
      (validateCluster cluster).1.serviceName = ecc.ServiceName) ∧
    ((validateCluster cluster).1.doLRS = true ↔
      ∃ c ls s, cluster = some c ∧ c.LrsServer = some ls ∧
        ls.ConfigSourceSpecifier = .self (some s)) := by
  obtain ⟨c, ecc, cs, a, rfl, h1, h2, h3, h4, h5⟩ := (validateCluster_err_none_iff cluster).mp h
  have hv : (validateCluster (some c)).1 =
      { serviceName := ecc.ServiceName,
        doLRS := decide (ConfigSource.GetSelf c.LrsServer ≠ none) } := by
    simp [validateCluster, Cluster.GetType, Cluster.GetEdsClusterConfig, Cluster.GetLbPolicy,
      EdsClusterConfig.GetEdsConfig, ConfigSource.GetAds, EdsClusterConfig.GetServiceName,
      Cluster.GetLrsServer, h1, h2, h3, h4, h5]
  rw [hv]
  refine ⟨⟨c, ecc, rfl, h2, rfl⟩, ?_⟩
  simp only [decide_eq_true_eq]
  constructor
  · intro hs
    cases hl : c.LrsServer with
    | none => rw [hl] at hs; exact absurd rfl hs
    | some ls =>
      rw [hl] at hs
      obtain ⟨spec⟩ := ls
      cases spec with
      | unset => exact absurd rfl hs
      | path p => exact absurd rfl hs
      | apiConfigSource => exact absurd rfl hs
      | ads a => exact absurd rfl hs
      | self s =>
        cases s with
        | none => exact absurd rfl hs
        | some s => exact ⟨c, _, s, rfl, hl, rfl⟩
  · rintro ⟨c2, ls, s, hc, hl, hs⟩
    cases hc
    simp [ConfigSource.GetSelf, hl, hs]

/-- C3, at a concrete input: the accepted cluster "A" with no service name and a
Self LRS server yields the update with serviceName "" (not "A") and doLRS true. -/
theorem validateCluster_accepted_update_witness :
    (validateCluster (some (edsCluster "A" "" true))).2 = none ∧
    (validateCluster (some (edsCluster "A" "" true))).1 =
      { serviceName := "", doLRS := true } ∧
    ((∃ c ecc, some (edsCluster "A" "" true) = some c ∧ c.EdsClusterConfig = some ecc ∧
      (validateCluster (some (edsCluster "A" "" true))).1.serviceName = ecc.ServiceName) ∧
    ((validateCluster (some (edsCluster "A" "" true))).1.doLRS = true ↔
      ∃ c ls s, some (edsCluster "A" "" true) = some c ∧ c.LrsServer = some ls ∧
        ls.ConfigSourceSpecifier = .self (some s))) :=
  ⟨by decide, by decide,
    validateCluster_accepted_update (some (edsCluster "A" "" true)) (by decide)⟩


/-! ## The response handler: aborted batches -/

/-- C1 (as stated, refuted). A CDS watch is registered with an empty target
list and the response holds a valid cluster followed by an undecodable
envelope: the handler does not return an error, it faults on `wi.target[0]`
while handling the first resource. -/
theorem handleCDSResponse_abort_empty_target_faults :
    (clientWatching [] staleCache).watchMap .cdsResource =
      some { target := [], callback := { id := 1 } } ∧
    (∃ r ∈ DiscoveryResponse.GetResources
        (responseOf [envelope (edsCluster "A" "" false), .undecodable]),
      acceptedCluster r = none) ∧
    (handleCDSResponse (clientWatching [] staleCache)
      (responseOf [envelope (edsCluster "A" "" false), .undecodable])).ret = .panicked :=
  ⟨by decide, ⟨.undecodable, by decide, by decide⟩, by decide⟩

/-- C1 (amended). For every client state with a registered CDS watch and every
response in which some envelope fails to unwrap to a cluster or fails
`validateCluster`, the handler leaves `cdsCache` as it was (also when valid
resources precede the bad one), invokes no callback, stops no timer and does
not return nil; when the watch's target list is non-empty it returns a non-nil
error. -/
theorem handleCDSResponse_atomic_abort (v2c : v2Client) (resp : Option DiscoveryResponse)
    (wi : watchInfo) (hw : v2c.watchMap .cdsResource = some wi)
    (hbad : ∃ r ∈ DiscoveryResponse.GetResources resp, acceptedCluster r = none) :
    (handleCDSResponse v2c resp).client.cdsCache = v2c.cdsCache ∧
    (handleCDSResponse v2c resp).events = [] ∧
    (handleCDSResponse v2c resp).ret ≠ .returned none ∧
    (wi.target ≠ [] → ∃ e, (handleCDSResponse v2c resp).ret = .returned (some e)) := by
  unfold handleCDSResponse
  rw [hw]
  rcases cdsLoop_rejected wi (DiscoveryResponse.GetResources resp)
    { serviceName := "", doLRS := false } emptyCache hbad with ⟨e, he⟩ | ⟨ht, hf⟩
  · simp only [he]
    exact ⟨trivial, trivial, by simp, fun _ => ⟨e, rfl⟩⟩
  · simp only [hf]
    exact ⟨trivial, trivial, by simp, fun hne => absurd ht hne⟩

/-- C1 (amended), at a concrete input: watch on "A", prior cache holding "old",
batch of the valid cluster "A" followed by the STATIC cluster "B". -/
theorem handleCDSResponse_atomic_abort_witness :
    (clientWatching ["A"] staleCache).watchMap .cdsResource =
      some { target := ["A"], callback := { id := 1 } } ∧
    (∃ r ∈ DiscoveryResponse.GetResources
        (responseOf [envelope (edsCluster "A" "" false), envelope (staticCluster "B")]),
      acceptedCluster r = none) ∧
    (handleCDSResponse (clientWatching ["A"] staleCache)
      (responseOf [envelope (edsCluster "A" "" false),
        envelope (staticCluster "B")])).client.cdsCache = staleCache ∧
    (handleCDSResponse (clientWatching ["A"] staleCache)
      (responseOf [envelope (edsCluster "A" "" false),
        envelope (staticCluster "B")])).events = [] ∧
    (∃ e, (handleCDSResponse (clientWatching ["A"] staleCache)
      (responseOf [envelope (edsCluster "A" "" false),
        envelope (staticCluster "B")])).ret = .returned (some e)) :=
  have h := handleCDSResponse_atomic_abort (clientWatching ["A"] staleCache)
    (responseOf [envelope (edsCluster "A" "" false), envelope (staticCluster "B")])
    { target := ["A"], callback := { id := 1 } } (by decide)
    ⟨envelope (staticCluster "B"), by decide, by decide⟩
  ⟨by decide, ⟨envelope (staticCluster "B"), by decide, by decide⟩, h.1, h.2.1,
    h.2.2.2 (by decide)⟩

/-- C10. With no CDS entry in the watch registry the handler returns the
no-watcher error whatever the response is (no resource is examined), leaves
the client state, hence the cache, as it was, and has no effect: no callback,
no timer stop. -/
theorem handleCDSResponse_no_watch (v2c : v2Client) (resp : Option DiscoveryResponse)
    (hw : v2c.watchMap .cdsResource = none) :
    (handleCDSResponse v2c resp).ret = .returned (some .noCDSWatcher) ∧
    (handleCDSResponse v2c resp).client.cdsCache = v2c.cdsCache ∧
    (handleCDSResponse v2c resp).client.watchMap = v2c.watchMap ∧
    (handleCDSResponse v2c resp).events = [] ∧
    (∀ other : Option DiscoveryResponse,
      (handleCDSResponse v2c other).ret = (handleCDSResponse v2c resp).ret ∧
      (handleCDSResponse v2c other).events = (handleCDSResponse v2c resp).events ∧
      (handleCDSResponse v2c other).client.cdsCache =
        (handleCDSResponse v2c resp).client.cdsCache) := by
  unfold handleCDSResponse
  rw [hw]
  exact ⟨rfl, rfl, rfl, rfl, fun _ => ⟨rfl, rfl, rfl⟩⟩

/-- C10, at a concrete input: an idle client holding the entry "old" receives a
batch with a valid cluster and an undecodable envelope. -/
theorem handleCDSResponse_no_watch_witness :
    (clientIdle staleCache).watchMap .cdsResource = none ∧
    (handleCDSResponse (clientIdle staleCache)
      (responseOf [envelope (edsCluster "A" "" false), .undecodable])).ret =
        .returned (some .noCDSWatcher) ∧
    (handleCDSResponse (clientIdle staleCache)
      (responseOf [envelope (edsCluster "A" "" false), .undecodable])).client.cdsCache =
        staleCache ∧
    (handleCDSResponse (clientIdle staleCache)
      (responseOf [envelope (edsCluster "A" "" false), .undecodable])).events = [] :=
  have h := handleCDSResponse_no_watch (clientIdle staleCache)
    (responseOf [envelope (edsCluster "A" "" false), .undecodable]) rfl
  ⟨rfl, h.1, h.2.1, h.2.2.2.1⟩


/-! ## The response handler: accepted batches -/

theorem accepted_of_mem_filterMap {rs : List AnyResource} {c : Cluster}
    (h : c ∈ rs.filterMap acceptedCluster) : (validateCluster (some c)).2 = none := by
  obtain ⟨r, _, hrc⟩ := List.mem_filterMap.mp h
  exact (acceptedCluster_eq_some hrc).2

theorem resolvedUpdate_serviceName_ne (c : Cluster) (h : (validateCluster (some c)).2 = none)
    (hn : c.Name ≠ "") : (resolvedUpdate c).serviceName ≠ "" := by
  rw [(resolvedUpdate_serviceName c h).1]
  split_ifs with hs
  · exact hn
  · exact hs

/-- C4 (as stated, refuted). The watch's first target is the empty name and the
batch is the single valid cluster with the empty name and no service name: the
cluster's name equals the target, yet the callback receives the zero update
with the target-not-found error. -/
theorem handleCDSResponse_empty_name_not_found :
    (clientWatching [""] emptyCache).watchMap .cdsResource =
      some { target := [""], callback := { id := 1 } } ∧
    (∀ r ∈ DiscoveryResponse.GetResources (responseOf [envelope (edsCluster "" "" false)]),
      (acceptedCluster r).isSome = true) ∧
    (edsCluster "" "" false).Name = "" ∧
    (handleCDSResponse (clientWatching [""] emptyCache)
      (responseOf [envelope (edsCluster "" "" false)])).events =
      [.stopTimer,
       .callback { id := 1 } { serviceName := "", doLRS := false } (some .targetNotFound)] :=
  ⟨by decide, by decide, by decide, by decide⟩

/-- C4 (amended). For every client state with a registered CDS watch whose first
target name is not the empty string and every response in which every envelope
unwraps to a cluster accepted by `validateCluster` and some cluster's name
equals that target name, the handler stops the timer and invokes the watch
callback once, with a nil error. -/
theorem handleCDSResponse_target_found (v2c : v2Client) (resp : Option DiscoveryResponse)
    (wi : watchInfo) (t0 : String)
    (hw : v2c.watchMap .cdsResource = some wi) (h0 : wi.target[0]? = some t0)
    (hall : ∀ r ∈ DiscoveryResponse.GetResources resp, (acceptedCluster r).isSome = true)
    (hmem : ∃ c ∈ (DiscoveryResponse.GetResources resp).filterMap acceptedCluster, c.Name = t0)
    (hne : t0 ≠ "") :
    ∃ u, (handleCDSResponse v2c resp).events = [.stopTimer, .callback wi.callback u none] := by
  obtain ⟨_, _, _, hev⟩ := handleCDSResponse_allAccepted v2c resp wi t0 hw h0 hall
  cases hl : lastNamed t0 ((DiscoveryResponse.GetResources resp).filterMap acceptedCluster) with
  | none =>
    obtain ⟨c, hc, hcn⟩ := hmem
    exact absurd hcn (lastNamed_eq_none.mp hl c hc)
  | some c =>
    have hc := lastNamed_eq_some hl
    have hs : (resolvedUpdate c).serviceName ≠ "" :=
      resolvedUpdate_serviceName_ne c (accepted_of_mem_filterMap hc.1) (by rw [hc.2]; exact hne)
    refine ⟨resolvedUpdate c, ?_⟩
    rw [hev, hl]
    simp [hs]

/-- C4 (amended), at a concrete input: watch on "A", batch of the valid clusters
"B" and "A". -/
theorem handleCDSResponse_target_found_witness :
    (clientWatching ["A"] emptyCache).watchMap .cdsResource =
      some { target := ["A"], callback := { id := 1 } } ∧
    (∀ r ∈ DiscoveryResponse.GetResources
        (responseOf [envelope (edsCluster "B" "svc" true), envelope (edsCluster "A" "" false)]),
      (acceptedCluster r).isSome = true) ∧
    (∃ u, (handleCDSResponse (clientWatching ["A"] emptyCache)
      (responseOf [envelope (edsCluster "B" "svc" true),
        envelope (edsCluster "A" "" false)])).events =
      [.stopTimer, .callback { id := 1 } u none]) :=
  ⟨by decide, by decide,
    handleCDSResponse_target_found (clientWatching ["A"] emptyCache)
      (responseOf [envelope (edsCluster "B" "svc" true), envelope (edsCluster "A" "" false)])
      { target := ["A"], callback := { id := 1 } } "A" (by decide) (by decide) (by decide)
      ⟨edsCluster "A" "" false, by decide, by decide⟩ (by decide)⟩

/-- C5. For every all-valid response whose last cluster named as the watch's
first target is `c`, the update passed to the callback has serviceName equal to
the EDS service name configured in `c` when that is non-empty and to the name
of `c` otherwise, and doLRS as `validateCluster` computes it for `c`. For the
batch of the single cluster "A" (EDS, ROUND_ROBIN, ADS source, no service name,
no LRS server) and target "A", whatever the prior cache, the callback receives
(update{serviceName "A", doLRS false}, nil) and the cache maps "A" to that
update. -/
theorem handleCDSResponse_callback_update (v2c : v2Client) (resp : Option DiscoveryResponse)
    (wi : watchInfo) (t0 : String) (pre post : List Cluster) (c : Cluster)
    (hw : v2c.watchMap .cdsResource = some wi) (h0 : wi.target[0]? = some t0)
    (hall : ∀ r ∈ DiscoveryResponse.GetResources resp, (acceptedCluster r).isSome = true)
    (hbatch : (DiscoveryResponse.GetResources resp).filterMap acceptedCluster =
      pre ++ c :: post)
    (hc : c.Name = t0) (hpost : ∀ d ∈ post, d.Name ≠ t0) :
    (∃ err, (handleCDSResponse v2c resp).events =
      [.stopTimer,
       .callback wi.callback
        { serviceName :=
            if EdsClusterConfig.GetServiceName (Cluster.GetEdsClusterConfig (some c)) = ""
            then c.Name
            else EdsClusterConfig.GetServiceName (Cluster.GetEdsClusterConfig (some c)),
          doLRS := (validateCluster (some c)).1.doLRS }
        err]) ∧
    (∀ cache : cdsCacheMap,
      (handleCDSResponse (clientWatching ["A"] cache)
        (responseOf [envelope (edsCluster "A" "" false)])).events =
        [.stopTimer, .callback { id := 1 } { serviceName := "A", doLRS := false } none] ∧
      (handleCDSResponse (clientWatching ["A"] cache)
        (responseOf [envelope (edsCluster "A" "" false)])).client.cdsCache "A" =
        some { serviceName := "A", doLRS := false }) := by
  refine ⟨?_, fun cache => ⟨rfl, rfl⟩⟩
  obtain ⟨_, _, _, hev⟩ := handleCDSResponse_allAccepted v2c resp wi t0 hw h0 hall
  have hl := lastNamed_append_cons pre post c hc hpost
  rw [← hbatch] at hl
  have hcmem : c ∈ (DiscoveryResponse.GetResources resp).filterMap acceptedCluster := by
    rw [hbatch]; simp
  have hr := resolvedUpdate_serviceName c (accepted_of_mem_filterMap hcmem)
  have hu : resolvedUpdate c =
      { serviceName :=
          if EdsClusterConfig.GetServiceName (Cluster.GetEdsClusterConfig (some c)) = ""
          then c.Name
          else EdsClusterConfig.GetServiceName (Cluster.GetEdsClusterConfig (some c)),
        doLRS := (validateCluster (some c)).1.doLRS } := by
    rw [← hr.1, ← hr.2]
  rw [hev, hl]
  simp only [hu]
  exact ⟨_, rfl⟩

/-- C5, at a concrete input: watch on "A"; the batch holds "A" twice, first
with no service name, last with service name "svc" and a Self LRS server, then
"B": the callback receives the update of the last "A". -/
theorem handleCDSResponse_callback_update_witness :
    (∃ err, (handleCDSResponse (clientWatching ["A"] staleCache)
      (responseOf [envelope (edsCluster "A" "" false), envelope (edsCluster "A" "svc" true),
        envelope (edsCluster "B" "" false)])).events =
      [.stopTimer, .callback { id := 1 } { serviceName := "svc", doLRS := true } err]) :=
  (handleCDSResponse_callback_update (clientWatching ["A"] staleCache)
    (responseOf [envelope (edsCluster "A" "" false), envelope (edsCluster "A" "svc" true),
      envelope (edsCluster "B" "" false)])
    { target := ["A"], callback := { id := 1 } } "A"
    [edsCluster "A" "" false] [edsCluster "B" "" false] (edsCluster "A" "svc" true)
    (by decide) (by decide) (by decide) (by decide) (by decide) (by decide)).1

/-- C6. For every client state with a registered CDS watch and every response
in which every resource is individually valid but none has the watch's first
target name, the handler returns nil, the cache afterwards holds an entry for
every resource name of the batch (the update of a cluster of that name), and
the callback is invoked, after the timer is stopped, with the zero-value update
and the target-not-found error. -/
theorem handleCDSResponse_target_absent (v2c : v2Client) (resp : Option DiscoveryResponse)
    (wi : watchInfo) (t0 : String)
    (hw : v2c.watchMap .cdsResource = some wi) (h0 : wi.target[0]? = some t0)
    (hall : ∀ r ∈ DiscoveryResponse.GetResources resp, (acceptedCluster r).isSome = true)
    (habs : ∀ c ∈ (DiscoveryResponse.GetResources resp).filterMap acceptedCluster,
      c.Name ≠ t0) :
    (handleCDSResponse v2c resp).ret = .returned none ∧
    (∀ c ∈ (DiscoveryResponse.GetResources resp).filterMap acceptedCluster,
      ∃ d ∈ (DiscoveryResponse.GetResources resp).filterMap acceptedCluster,
        d.Name = c.Name ∧
        (handleCDSResponse v2c resp).client.cdsCache c.Name = some (resolvedUpdate d)) ∧
    (handleCDSResponse v2c resp).events =
      [.stopTimer,
       .callback wi.callback { serviceName := "", doLRS := false }
        (some .targetNotFound)] := by
  obtain ⟨hret, hcache, _, hev⟩ := handleCDSResponse_allAccepted v2c resp wi t0 hw h0 hall
  refine ⟨hret, ?_, ?_⟩
  · intro c hc
    cases hl : lastNamed c.Name
        ((DiscoveryResponse.GetResources resp).filterMap acceptedCluster) with
    | none => exact absurd rfl (lastNamed_eq_none.mp hl c hc)
    | some d =>
      have hd := lastNamed_eq_some hl
      exact ⟨d, hd.1, hd.2, by rw [hcache, hl]; rfl⟩
  · rw [hev, lastNamed_eq_none.mpr habs]
    simp

/-- C6, at a concrete input: watch on "A", prior cache holding "old", batch of
the valid clusters "B" and "C". -/
theorem handleCDSResponse_target_absent_witness :
    (handleCDSResponse (clientWatching ["A"] staleCache)
      (responseOf [envelope (edsCluster "B" "svc" true),
        envelope (edsCluster "C" "" false)])).ret = .returned none ∧
    (handleCDSResponse (clientWatching ["A"] staleCache)
      (responseOf [envelope (edsCluster "B" "svc" true),
        envelope (edsCluster "C" "" false)])).client.cdsCache "C" =
      some { serviceName := "C", doLRS := false } ∧
    (handleCDSResponse (clientWatching ["A"] staleCache)
      (responseOf [envelope (edsCluster "B" "svc" true),
        envelope (edsCluster "C" "" false)])).events =
      [.stopTimer,
       .callback { id := 1 } { serviceName := "", doLRS := false }
        (some .targetNotFound)] :=
  have h := handleCDSResponse_target_absent (clientWatching ["A"] staleCache)
    (responseOf [envelope (edsCluster "B" "svc" true), envelope (edsCluster "C" "" false)])
    { target := ["A"], callback := { id := 1 } } "A" (by decide) (by decide) (by decide)
    (by decide)
  ⟨h.1, by decide, h.2.2⟩


/-! ## The response handler: the cache and the watch life cycle -/

/-- C7 (as stated, refuted). A CDS watch is registered with an empty target
list; the prior cache holds "old" and the response is the single valid cluster
"A". Every envelope unwraps and validates, yet the handler faults on
`wi.target[0]` before the cache is replaced: "A" is not a key afterwards and
the stale entry "old" is still there. -/
theorem handleCDSResponse_replacement_empty_target :
    (clientWatching [] staleCache).watchMap .cdsResource =
      some { target := [], callback := { id := 1 } } ∧
    (∀ r ∈ DiscoveryResponse.GetResources (responseOf [envelope (edsCluster "A" "" false)]),
      (acceptedCluster r).isSome = true) ∧
    (handleCDSResponse (clientWatching [] staleCache)
      (responseOf [envelope (edsCluster "A" "" false)])).ret = .panicked ∧
    (handleCDSResponse (clientWatching [] staleCache)
      (responseOf [envelope (edsCluster "A" "" false)])).client.cdsCache "A" = none ∧
    (handleCDSResponse (clientWatching [] staleCache)
      (responseOf [envelope (edsCluster "A" "" false)])).client.cdsCache "old" =
      some { serviceName := "old-service", doLRS := true } :=
  ⟨by decide, by decide, by decide, by decide, by decide⟩

/-- C7 (amended). For every prior cache and every response that is processed
successfully (watch registered with a non-empty target list, every envelope
unwraps and validates), the cache after the handler is a function of the batch
alone: each name maps to the validated update (with name fallback) of the last
cluster carrying that name, the key set is exactly the set of cluster names in
the batch, and every prior entry whose name is not in the batch is gone. -/
theorem handleCDSResponse_full_replacement (v2c : v2Client)
    (resp : Option DiscoveryResponse) (wi : watchInfo) (t0 : String)
    (hw : v2c.watchMap .cdsResource = some wi) (h0 : wi.target[0]? = some t0)
    (hall : ∀ r ∈ DiscoveryResponse.GetResources resp, (acceptedCluster r).isSome = true) :
    (handleCDSResponse v2c resp).client.cdsCache =
      (fun k => (lastNamed k
        ((DiscoveryResponse.GetResources resp).filterMap acceptedCluster)).map
          resolvedUpdate) ∧
    (∀ (pre post : List Cluster) (c : Cluster),
      (DiscoveryResponse.GetResources resp).filterMap acceptedCluster = pre ++ c :: post →
      (∀ d ∈ post, d.Name ≠ c.Name) →
      (handleCDSResponse v2c resp).client.cdsCache c.Name = some (resolvedUpdate c)) ∧
    (∀ k, ((handleCDSResponse v2c resp).client.cdsCache k).isSome = true ↔
      ∃ c ∈ (DiscoveryResponse.GetResources resp).filterMap acceptedCluster, c.Name = k) ∧
    (∀ k, (∀ c ∈ (DiscoveryResponse.GetResources resp).filterMap acceptedCluster,
        c.Name ≠ k) →
      (handleCDSResponse v2c resp).client.cdsCache k = none) := by
  obtain ⟨_, hcache, _, _⟩ := handleCDSResponse_allAccepted v2c resp wi t0 hw h0 hall
  refine ⟨funext hcache, ?_, ?_, ?_⟩
  · intro pre post c hb hpost
    rw [hcache, hb, lastNamed_append_cons pre post c rfl hpost]
    rfl
  · intro k
    rw [hcache]
    cases hl : lastNamed k
        ((DiscoveryResponse.GetResources resp).filterMap acceptedCluster) with
    | none =>
      have hn := lastNamed_eq_none.mp hl
      constructor
      · intro h; simp at h
      · rintro ⟨c, hc, hck⟩; exact absurd hck (hn c hc)
    | some d =>
      have hd := lastNamed_eq_some hl
      constructor
      · intro _; exact ⟨d, hd.1, hd.2⟩
      · intro _; rfl
  · intro k hk
    rw [hcache, lastNamed_eq_none.mpr hk]
    rfl

/-- C7 (amended), at a concrete input: watch on "A", prior cache holding "old",
batch of the valid clusters "B", "A" and again "B" with another service name:
afterwards "B" maps to the update of the last "B" and "old" is gone. -/
theorem handleCDSResponse_full_replacement_witness :
    (handleCDSResponse (clientWatching ["A"] staleCache)
      (responseOf [envelope (edsCluster "B" "first" false), envelope (edsCluster "A" "" false),
        envelope (edsCluster "B" "last" true)])).client.cdsCache "B" =
      some { serviceName := "last", doLRS := true } ∧
    (handleCDSResponse (clientWatching ["A"] staleCache)
      (responseOf [envelope (edsCluster "B" "first" false), envelope (edsCluster "A" "" false),
        envelope (edsCluster "B" "last" true)])).client.cdsCache "old" = none :=
  have h := handleCDSResponse_full_replacement (clientWatching ["A"] staleCache)
    (responseOf [envelope (edsCluster "B" "first" false), envelope (edsCluster "A" "" false),
      envelope (edsCluster "B" "last" true)])
    { target := ["A"], callback := { id := 1 } } "A" (by decide) (by decide) (by decide)
  ⟨h.2.1 [edsCluster "B" "first" false, edsCluster "A" "" false] []
      (edsCluster "B" "last" true) (by decide) (by decide),
    h.2.2.2 "old" (by decide)⟩

/-- C8. For every registered watch and every all-valid response that contains a
cluster named as the watch's first target, the callback is invoked once and
the cache entry for that name after the handler equals the update value passed
to the callback (also when several clusters carry the target's name). -/
theorem handleCDSResponse_cache_round_trip (v2c : v2Client)
    (resp : Option DiscoveryResponse) (wi : watchInfo) (t0 : String)
    (hw : v2c.watchMap .cdsResource = some wi) (h0 : wi.target[0]? = some t0)
    (hall : ∀ r ∈ DiscoveryResponse.GetResources resp, (acceptedCluster r).isSome = true)
    (hmem : ∃ c ∈ (DiscoveryResponse.GetResources resp).filterMap acceptedCluster,
      c.Name = t0) :
    ∃ u err,
      (handleCDSResponse v2c resp).events = [.stopTimer, .callback wi.callback u err] ∧
      (handleCDSResponse v2c resp).client.cdsCache t0 = some u := by
  obtain ⟨_, hcache, _, hev⟩ := handleCDSResponse_allAccepted v2c resp wi t0 hw h0 hall
  cases hl : lastNamed t0
      ((DiscoveryResponse.GetResources resp).filterMap acceptedCluster) with
  | none =>
    obtain ⟨c, hc, hcn⟩ := hmem
    exact absurd hcn (lastNamed_eq_none.mp hl c hc)
  | some c =>
    refine ⟨resolvedUpdate c,
      if (resolvedUpdate c).serviceName = "" then some .targetNotFound else none, ?_, ?_⟩
    · rw [hev, hl]
    · rw [hcache, hl]
      rfl

/-- C8, at a concrete input: watch on "A", batch holding "A" twice with
different service names: cache and callback both get the update of the last. -/
theorem handleCDSResponse_cache_round_trip_witness :
    (∃ u err,
      (handleCDSResponse (clientWatching ["A"] staleCache)
        (responseOf [envelope (edsCluster "A" "first" false),
          envelope (edsCluster "A" "last" true)])).events =
        [.stopTimer, .callback { id := 1 } u err] ∧
      (handleCDSResponse (clientWatching ["A"] staleCache)
        (responseOf [envelope (edsCluster "A" "first" false),
          envelope (edsCluster "A" "last" true)])).client.cdsCache "A" = some u) ∧
    (handleCDSResponse (clientWatching ["A"] staleCache)
      (responseOf [envelope (edsCluster "A" "first" false),
        envelope (edsCluster "A" "last" true)])).client.cdsCache "A" =
      some { serviceName := "last", doLRS := true } :=
  ⟨handleCDSResponse_cache_round_trip (clientWatching ["A"] staleCache)
    (responseOf [envelope (edsCluster "A" "first" false),
      envelope (edsCluster "A" "last" true)])
    { target := ["A"], callback := { id := 1 } } "A" (by decide) (by decide) (by decide)
    ⟨edsCluster "A" "last" true, by decide, by decide⟩,
   by decide⟩

theorem callbackCount_append (xs ys : List Event) :
    callbackCount (xs ++ ys) = callbackCount xs + callbackCount ys := by
  simp [callbackCount, List.filter_append]

theorem callbackCount_handleCDSResponse (v2c : v2Client) (resp : Option DiscoveryResponse) :
    callbackCount (handleCDSResponse v2c resp).events =
      if (handleCDSResponse v2c resp).ret = .returned none then 1 else 0 := by
  cases hw : v2c.watchMap .cdsResource with
  | none => simp [handleCDSResponse, hw, callbackCount]
  | some wi =>
    cases hl : cdsLoop wi (DiscoveryResponse.GetResources resp)
        { serviceName := "", doLRS := false } emptyCache with
    | done ru lc => simp [handleCDSResponse, hw, hl, callbackCount]
    | failed e => simp [handleCDSResponse, hw, hl, callbackCount]
    | fault => simp [handleCDSResponse, hw, hl, callbackCount]

theorem callbackCount_handleAll_le :
    ∀ (resps : List (Option DiscoveryResponse)) (v2c : v2Client),
      callbackCount (handleAll v2c resps).2 ≤ resps.length := by
  intro resps
  induction resps with
  | nil => intro v2c; simp [handleAll, callbackCount]
  | cons resp rest ih =>
    intro v2c
    have h1 : callbackCount (handleCDSResponse v2c resp).events ≤ 1 := by
      rw [callbackCount_handleCDSResponse]
      split_ifs
      all_goals simp
    rw [handleAll]
    cases hr : (handleCDSResponse v2c resp).ret with
    | panicked =>
      simp only [List.length_cons]
      omega
    | returned e =>
      simp only [callbackCount_append, List.length_cons]
      have := ih (handleCDSResponse v2c resp).client
      omega

/-- C9 (as stated, refuted). One watch on "A" is registered and the same valid
response carrying "A" is handled twice with no registration in between: the
callback of the entry is invoked twice. -/
theorem handleAll_callback_twice :
    (handleAll (clientWatching ["A"] emptyCache)
      [responseOf [envelope (edsCluster "A" "" false)],
       responseOf [envelope (edsCluster "A" "" false)]]).2 =
      [.stopTimer, .callback { id := 1 } { serviceName := "A", doLRS := false } none,
       .stopTimer, .callback { id := 1 } { serviceName := "A", doLRS := false } none] ∧
    callbackCount (handleAll (clientWatching ["A"] emptyCache)
      [responseOf [envelope (edsCluster "A" "" false)],
       responseOf [envelope (edsCluster "A" "" false)]]).2 = 2 :=
  ⟨by decide, by decide⟩

/-- C9 (amended). The callback of the registered entry is invoked at most once
per response: one call of the handler invokes it exactly once when it returns
nil and not at all when it returns an error or faults, so over a sequence of
responses handled with no new registration in between it is invoked at most as
many times as there are responses. -/
theorem handleCDSResponse_callback_once_per_response (v2c : v2Client)
    (resps : List (Option DiscoveryResponse)) :
    (∀ resp : Option DiscoveryResponse,
      callbackCount (handleCDSResponse v2c resp).events =
        if (handleCDSResponse v2c resp).ret = .returned none then 1 else 0) ∧
    callbackCount (handleAll v2c resps).2 ≤ resps.length :=
  ⟨callbackCount_handleCDSResponse v2c, callbackCount_handleAll_le resps v2c⟩

/-! ## Further lemmas on the loop and the handler -/

theorem cdsLoop_congr_target (wi1 wi2 : watchInfo) (h : wi1.target[0]? = wi2.target[0]?) :
    ∀ (rs : List AnyResource) (ru : cdsUpdate) (lc : cdsCacheMap),
      cdsLoop wi1 rs ru lc = cdsLoop wi2 rs ru lc := by
  intro rs
  induction rs with
  | nil => intro ru lc; simp [cdsLoop]
  | cons r rest ih =>
    intro ru lc
    rw [cdsLoop, cdsLoop, h]
    simp only [ih]

theorem cdsLoop_no_target (wi : watchInfo) (ht : wi.target = []) (r : AnyResource)
    (c : Cluster) (hr : acceptedCluster r = some c) (rest : List AnyResource)
    (ru : cdsUpdate) (lc : cdsCacheMap) : cdsLoop wi (r :: rest) ru lc = .fault := by
  obtain ⟨rfl, hv⟩ := acceptedCluster_eq_some hr
  rw [cdsLoop]
  simp only [UnmarshalAny]
  have hsplit : validateCluster (some c) = ((validateCluster (some c)).1, none) := by
    rw [← hv]
  rw [hsplit]
  simp [ht]

theorem cdsLoop_ne_fault (wi : watchInfo) (t0 : String) (h0 : wi.target[0]? = some t0) :
    ∀ (rs : List AnyResource) (ru : cdsUpdate) (lc : cdsCacheMap),
      cdsLoop wi rs ru lc ≠ .fault := by
  intro rs
  induction rs with
  | nil => intro ru lc; simp [cdsLoop]
  | cons r rest ih =>
    intro ru lc
    cases hr : acceptedCluster r with
    | some c =>
      rw [cdsLoop_cons_accepted wi t0 h0 r c hr rest ru lc]
      exact ih _ _
    | none =>
      rcases cdsLoop_rejected wi (r :: rest) ru lc ⟨r, List.mem_cons_self _ _, hr⟩ with
        ⟨e, he⟩ | ⟨ht, _⟩
      · rw [he]; simp
      · rw [ht] at h0; simp at h0

theorem handleCDSResponse_frame (v2c : v2Client) (resp : Option DiscoveryResponse) :
    (handleCDSResponse v2c resp).client.watchMap = v2c.watchMap ∧
    (handleCDSResponse v2c resp).client.nodeProto = v2c.nodeProto := by
  cases hw : v2c.watchMap .cdsResource with
  | none => simp [handleCDSResponse, hw]
  | some wi =>
    cases hl : cdsLoop wi (DiscoveryResponse.GetResources resp)
        { serviceName := "", doLRS := false } emptyCache with
    | done ru lc => simp [handleCDSResponse, hw, hl]
    | failed e => simp [handleCDSResponse, hw, hl]
    | fault => simp [handleCDSResponse, hw, hl]

theorem handleCDSResponse_of_failed (v2c : v2Client) (resp : Option DiscoveryResponse)
    (wi : watchInfo) (e : CDSError) (hw : v2c.watchMap .cdsResource = some wi)
    (hl : cdsLoop wi (DiscoveryResponse.GetResources resp)
      { serviceName := "", doLRS := false } emptyCache = .failed e) :
    (handleCDSResponse v2c resp).ret = .returned (some e) ∧
    (handleCDSResponse v2c resp).events = [] ∧
    (handleCDSResponse v2c resp).client.cdsCache = v2c.cdsCache := by
  simp [handleCDSResponse, hw, hl]

theorem handleCDSResponse_of_fault (v2c : v2Client) (resp : Option DiscoveryResponse)
    (wi : watchInfo) (hw : v2c.watchMap .cdsResource = some wi)
    (hl : cdsLoop wi (DiscoveryResponse.GetResources resp)
      { serviceName := "", doLRS := false } emptyCache = .fault) :
    (handleCDSResponse v2c resp).ret = .panicked ∧
    (handleCDSResponse v2c resp).events = [] ∧
    (handleCDSResponse v2c resp).client.cdsCache = v2c.cdsCache := by
  simp [handleCDSResponse, hw, hl]

theorem handleCDSResponse_of_done (v2c : v2Client) (resp : Option DiscoveryResponse)
    (wi : watchInfo) (ru : cdsUpdate) (lc : cdsCacheMap)
    (hw : v2c.watchMap .cdsResource = some wi)
    (hl : cdsLoop wi (DiscoveryResponse.GetResources resp)
      { serviceName := "", doLRS := false } emptyCache = .done ru lc) :
    (handleCDSResponse v2c resp).ret = .returned none ∧
    (handleCDSResponse v2c resp).events =
      [.stopTimer,
       .callback wi.callback ru (if ru.serviceName = "" then some .targetNotFound else none)] ∧
    (handleCDSResponse v2c resp).client.cdsCache = lc := by
  simp [handleCDSResponse, hw, hl]

/-! ## The response handler: the STATIC scenario and the returned error -/

/-- C11 (as stated, refuted). A watch on "B" is registered and the batch is the
single STATIC cluster "B": the handler returns the validation error to its
caller and the watch callback is not invoked at all. -/
theorem handleCDSResponse_static_no_callback :
    (clientWatching ["B"] staleCache).watchMap .cdsResource =
      some { target := ["B"], callback := { id := 1 } } ∧
    (handleCDSResponse (clientWatching ["B"] staleCache)
      (responseOf [envelope (staticCluster "B")])).events = [] ∧
    callbackCount (handleCDSResponse (clientWatching ["B"] staleCache)
      (responseOf [envelope (staticCluster "B")])).events = 0 ∧
    (handleCDSResponse (clientWatching ["B"] staleCache)
      (responseOf [envelope (staticCluster "B")])).ret =
      .returned (some .unexpectedClusterType) :=
  ⟨by decide, by decide, by decide, by decide⟩

/-- C11 (amended). For a registered watch and the batch consisting of one
cluster, named "B" or otherwise, whose discovery type is STATIC (not EDS), the
handler returns
the validation error (unexpected cluster type) to its caller, the watch
callback is not invoked, the timer is not stopped, and the cache is unchanged
from its prior state. -/
theorem handleCDSResponse_static_cluster (v2c : v2Client) (resp : Option DiscoveryResponse)
    (wi : watchInfo) (c : Cluster)
    (hw : v2c.watchMap .cdsResource = some wi)
    (hres : DiscoveryResponse.GetResources resp = [envelope c])
    (htype : c.ClusterDiscoveryType = .type Cluster_STATIC) :
    (handleCDSResponse v2c resp).ret = .returned (some .unexpectedClusterType) ∧
    (handleCDSResponse v2c resp).events = [] ∧
    callbackCount (handleCDSResponse v2c resp).events = 0 ∧
    (handleCDSResponse v2c resp).client.cdsCache = v2c.cdsCache := by
  have hl : cdsLoop wi (DiscoveryResponse.GetResources resp)
      { serviceName := "", doLRS := false } emptyCache = .failed .unexpectedClusterType := by
    rw [hres]
    simp [cdsLoop, envelope, UnmarshalAny, validateCluster, Cluster.GetType, htype]
  obtain ⟨h1, h2, h3⟩ := handleCDSResponse_of_failed v2c resp wi _ hw hl
  refine ⟨h1, h2, ?_, h3⟩
  rw [h2]
  rfl

/-- C11 (amended), at a concrete input: watch on "B", prior cache holding "old",
batch of the single STATIC cluster "B". -/
theorem handleCDSResponse_static_cluster_witness :
    (handleCDSResponse (clientWatching ["B"] staleCache)
      (responseOf [envelope (staticCluster "B")])).ret =
      .returned (some .unexpectedClusterType) ∧
    (handleCDSResponse (clientWatching ["B"] staleCache)
      (responseOf [envelope (staticCluster "B")])).events = [] ∧
    (handleCDSResponse (clientWatching ["B"] staleCache)
      (responseOf [envelope (staticCluster "B")])).client.cdsCache = staleCache :=
  have h := handleCDSResponse_static_cluster (clientWatching ["B"] staleCache)
    (responseOf [envelope (staticCluster "B")]) { target := ["B"], callback := { id := 1 } }
    (staticCluster "B") (by decide) (by decide) (by decide)
  ⟨h.1, h.2.1, h.2.2.2⟩


/-- C12 (as stated, refuted). A CDS watch is registered with an empty target
list and the batch is the single valid cluster "B": a watch is registered and
every envelope is accepted, yet the handler does not return nil, it faults. -/
theorem handleCDSResponse_nil_iff_empty_target :
    (clientWatching [] emptyCache).watchMap .cdsResource =
      some { target := [], callback := { id := 1 } } ∧
    (∀ r ∈ DiscoveryResponse.GetResources (responseOf [envelope (edsCluster "B" "svc" false)]),
      (acceptedCluster r).isSome = true) ∧
    (handleCDSResponse (clientWatching [] emptyCache)
      (responseOf [envelope (edsCluster "B" "svc" false)])).ret ≠ .returned none :=
  ⟨by decide, by decide, by decide⟩

/-- C12 (amended). The handler returns a nil error if and only if a CDS watch
is registered, every envelope of the response unwraps to a cluster accepted by
`validateCluster`, and the watch has a first target or the batch is empty. In
particular, when the batch is valid but lacks the watched name, the handler's
own return value is nil and the target-not-found error is delivered only
through the callback's error argument. -/
theorem handleCDSResponse_returns_nil_iff (v2c : v2Client) (resp : Option DiscoveryResponse) :
    ((handleCDSResponse v2c resp).ret = .returned none ↔
      ∃ wi, v2c.watchMap .cdsResource = some wi ∧
        (∀ r ∈ DiscoveryResponse.GetResources resp, (acceptedCluster r).isSome = true) ∧
        (wi.target ≠ [] ∨ DiscoveryResponse.GetResources resp = [])) ∧
    (∀ (wi : watchInfo) (t0 : String), v2c.watchMap .cdsResource = some wi →
      wi.target[0]? = some t0 →
      (∀ r ∈ DiscoveryResponse.GetResources resp, (acceptedCluster r).isSome = true) →
      (∀ c ∈ (DiscoveryResponse.GetResources resp).filterMap acceptedCluster, c.Name ≠ t0) →
      (handleCDSResponse v2c resp).ret = .returned none ∧
      (handleCDSResponse v2c resp).events =
        [.stopTimer,
         .callback wi.callback { serviceName := "", doLRS := false }
          (some .targetNotFound)]) := by
  constructor
  · constructor
    · intro hret
      cases hw : v2c.watchMap .cdsResource with
      | none =>
        rw [handleCDSResponse, hw] at hret
        simp at hret
      | some wi =>
        refine ⟨wi, rfl, ?_, ?_⟩
        · intro r hr
          by_contra hnot
          have hnone : acceptedCluster r = none := by
            cases ha : acceptedCluster r with
            | none => rfl
            | some c => rw [ha] at hnot; simp at hnot
          rcases cdsLoop_rejected wi (DiscoveryResponse.GetResources resp)
            { serviceName := "", doLRS := false } emptyCache ⟨r, hr, hnone⟩ with
            ⟨e, he⟩ | ⟨_, hf⟩
          · rw [(handleCDSResponse_of_failed v2c resp wi e hw he).1] at hret
            simp at hret
          · rw [(handleCDSResponse_of_fault v2c resp wi hw hf).1] at hret
            simp at hret
        · by_contra hcon
          push_neg at hcon
          obtain ⟨ht, hne⟩ := hcon
          cases hrs : DiscoveryResponse.GetResources resp with
          | nil => exact hne hrs
          | cons r rest =>
            cases ha : acceptedCluster r with
            | none =>
              rcases cdsLoop_rejected wi (DiscoveryResponse.GetResources resp)
                { serviceName := "", doLRS := false } emptyCache
                ⟨r, by rw [hrs]; exact List.mem_cons_self _ _, ha⟩ with ⟨e, he⟩ | ⟨_, hf⟩
              · rw [(handleCDSResponse_of_failed v2c resp wi e hw he).1] at hret
                simp at hret
              · rw [(handleCDSResponse_of_fault v2c resp wi hw hf).1] at hret
                simp at hret
            | some c =>
              have hf : cdsLoop wi (DiscoveryResponse.GetResources resp)
                  { serviceName := "", doLRS := false } emptyCache = .fault := by
                rw [hrs]
                exact cdsLoop_no_target wi ht r c ha rest _ _
              rw [(handleCDSResponse_of_fault v2c resp wi hw hf).1] at hret
              simp at hret
    · rintro ⟨wi, hw, hall, htgt | hnil⟩
      · cases ht : wi.target with
        | nil => exact absurd ht htgt
        | cons t0 ts =>
          have h0 : wi.target[0]? = some t0 := by simp [ht]
          exact (handleCDSResponse_allAccepted v2c resp wi t0 hw h0 hall).1
      · have hl : cdsLoop wi (DiscoveryResponse.GetResources resp)
            { serviceName := "", doLRS := false } emptyCache =
            .done { serviceName := "", doLRS := false } emptyCache := by
          rw [hnil, cdsLoop]
        exact (handleCDSResponse_of_done v2c resp wi _ _ hw hl).1
  · intro wi t0 hw h0 hall habs
    obtain ⟨hret, _, _, hev⟩ := handleCDSResponse_allAccepted v2c resp wi t0 hw h0 hall
    refine ⟨hret, ?_⟩
    rw [hev, lastNamed_eq_none.mpr habs]
    simp

/-- C12 (amended), at a concrete input: watch on "A", batch of the valid
cluster "B": the handler returns nil and the callback carries the error. -/
theorem handleCDSResponse_returns_nil_iff_witness :
    (handleCDSResponse (clientWatching ["A"] emptyCache)
      (responseOf [envelope (edsCluster "B" "svc" false)])).ret = .returned none ∧
    (handleCDSResponse (clientWatching ["A"] emptyCache)
      (responseOf [envelope (edsCluster "B" "svc" false)])).events =
      [.stopTimer,
       .callback { id := 1 } { serviceName := "", doLRS := false }
        (some .targetNotFound)] :=
  (handleCDSResponse_returns_nil_iff (clientWatching ["A"] emptyCache)
    (responseOf [envelope (edsCluster "B" "svc" false)])).2
    { target := ["A"], callback := { id := 1 } } "A" (by decide) (by decide) (by decide)
    (by decide)

/-- C13. For every client state and every response the handler leaves the
watch registry (and the node identity) unchanged; in particular, after a watch
has been consumed (its callback invoked) its entry, with the same targets and
callback, is still the registered CDS entry. -/
theorem handleCDSResponse_registry_frame (v2c : v2Client) (resp : Option DiscoveryResponse) :
    (handleCDSResponse v2c resp).client.watchMap = v2c.watchMap ∧
    (handleCDSResponse v2c resp).client.nodeProto = v2c.nodeProto ∧
    (∀ (wi : watchInfo), v2c.watchMap .cdsResource = some wi →
      0 < callbackCount (handleCDSResponse v2c resp).events →
      (handleCDSResponse v2c resp).client.watchMap .cdsResource = some wi ∧
      ∀ (next : Option DiscoveryResponse),
        (handleCDSResponse (handleCDSResponse v2c resp).client next).client.watchMap
          .cdsResource = some wi) := by
  obtain ⟨hm, hn⟩ := handleCDSResponse_frame v2c resp
  refine ⟨hm, hn, ?_⟩
  intro wi hw _
  refine ⟨by rw [hm, hw], ?_⟩
  intro next
  rw [(handleCDSResponse_frame (handleCDSResponse v2c resp).client next).1, hm, hw]

/-- C13, at a concrete input: after the watch on "A" is consumed by a batch
carrying "A", the entry with target ["A"] and the same callback is still the
registered CDS entry. -/
theorem handleCDSResponse_registry_frame_witness :
    callbackCount (handleCDSResponse (clientWatching ["A"] emptyCache)
      (responseOf [envelope (edsCluster "A" "" false)])).events = 1 ∧
    (handleCDSResponse (clientWatching ["A"] emptyCache)
      (responseOf [envelope (edsCluster "A" "" false)])).client.watchMap .cdsResource =
      some { target := ["A"], callback := { id := 1 } } :=
  ⟨by decide,
    ((handleCDSResponse_registry_frame (clientWatching ["A"] emptyCache)
      (responseOf [envelope (edsCluster "A" "" false)])).2.2
      { target := ["A"], callback := { id := 1 } } (by decide) (by decide)).1⟩

/-- C14. For every response and any two watch entries whose target lists are
non-empty and have the same first name, registered in client states with the
same cache, the handler produces the same cache, the same return value and the
same callback arguments (update and error), whatever the remaining target
names and the callbacks are. -/
theorem handleCDSResponse_first_target_only (v2c1 v2c2 : v2Client)
    (resp : Option DiscoveryResponse) (wi1 wi2 : watchInfo) (t0 : String)
    (hw1 : v2c1.watchMap .cdsResource = some wi1)
    (hw2 : v2c2.watchMap .cdsResource = some wi2)
    (hcache : v2c1.cdsCache = v2c2.cdsCache)
    (h1 : wi1.target[0]? = some t0) (h2 : wi2.target[0]? = some t0) :
    (handleCDSResponse v2c1 resp).client.cdsCache =
      (handleCDSResponse v2c2 resp).client.cdsCache ∧
    (handleCDSResponse v2c1 resp).ret = (handleCDSResponse v2c2 resp).ret ∧
    callbackArgs (handleCDSResponse v2c1 resp).events =
      callbackArgs (handleCDSResponse v2c2 resp).events := by
  have hcongr := cdsLoop_congr_target wi1 wi2 (h1.trans h2.symm)
    (DiscoveryResponse.GetResources resp) { serviceName := "", doLRS := false } emptyCache
  cases hl : cdsLoop wi2 (DiscoveryResponse.GetResources resp)
      { serviceName := "", doLRS := false } emptyCache with
  | done ru lc =>
    rw [hl] at hcongr
    obtain ⟨a1, a2, a3⟩ := handleCDSResponse_of_done v2c1 resp wi1 ru lc hw1 hcongr
    obtain ⟨b1, b2, b3⟩ := handleCDSResponse_of_done v2c2 resp wi2 ru lc hw2 hl
    rw [a1, a2, a3, b1, b2, b3]
    exact ⟨rfl, rfl, rfl⟩
  | failed e =>
    rw [hl] at hcongr
    obtain ⟨a1, a2, a3⟩ := handleCDSResponse_of_failed v2c1 resp wi1 e hw1 hcongr
    obtain ⟨b1, b2, b3⟩ := handleCDSResponse_of_failed v2c2 resp wi2 e hw2 hl
    rw [a1, a2, a3, b1, b2, b3]
    exact ⟨hcache, rfl, rfl⟩
  | fault =>
    rw [hl] at hcongr
    obtain ⟨a1, a2, a3⟩ := handleCDSResponse_of_fault v2c1 resp wi1 hw1 hcongr
    obtain ⟨b1, b2, b3⟩ := handleCDSResponse_of_fault v2c2 resp wi2 hw2 hl
    rw [a1, a2, a3, b1, b2, b3]
    exact ⟨hcache, rfl, rfl⟩

/-- C14, at a concrete input: the watches on ["A"] and on ["A", "B", "C"] get
the same cache and the same callback arguments from a batch carrying "B" and
"A". -/
theorem handleCDSResponse_first_target_only_witness :
    (handleCDSResponse (clientWatching ["A"] staleCache)
      (responseOf [envelope (edsCluster "B" "svc" true),
        envelope (edsCluster "A" "" false)])).client.cdsCache =
    (handleCDSResponse (clientWatching ["A", "B", "C"] staleCache)
      (responseOf [envelope (edsCluster "B" "svc" true),
        envelope (edsCluster "A" "" false)])).client.cdsCache ∧
    callbackArgs (handleCDSResponse (clientWatching ["A", "B", "C"] staleCache)
      (responseOf [envelope (edsCluster "B" "svc" true),
        envelope (edsCluster "A" "" false)])).events =
      [({ serviceName := "A", doLRS := false }, none)] :=
  have h := handleCDSResponse_first_target_only (clientWatching ["A"] staleCache)
    (clientWatching ["A", "B", "C"] staleCache)
    (responseOf [envelope (edsCluster "B" "svc" true), envelope (edsCluster "A" "" false)])
    { target := ["A"], callback := { id := 1 } }
    { target := ["A", "B", "C"], callback := { id := 1 } } "A"
    (by decide) (by decide) rfl (by decide) (by decide)
  ⟨h.1, by decide⟩



/-! ## The request builder and the stream sender -/

/-- C15. For every client and every list of names (the empty list included),
`newCDSRequest` returns a request whose Node is the client's node identity,
whose TypeUrl is the cluster type URL and whose ResourceNames is the given list
in the same order, and it changes no client state: cache, watch registry and
node identity are as before. -/
theorem newCDSRequest_builds_request (v2c : v2Client) (clusterName : List String) :
    (newCDSRequest v2c clusterName).2.Node = v2c.nodeProto ∧
    (newCDSRequest v2c clusterName).2.TypeUrl = clusterURL ∧
    (newCDSRequest v2c clusterName).2.ResourceNames = clusterName ∧
    (newCDSRequest v2c []).2.ResourceNames = [] ∧
    (newCDSRequest v2c clusterName).1.cdsCache = v2c.cdsCache ∧
    (newCDSRequest v2c clusterName).1.watchMap = v2c.watchMap ∧
    (newCDSRequest v2c clusterName).1.nodeProto = v2c.nodeProto :=
  ⟨rfl, rfl, rfl, rfl, rfl, rfl, rfl⟩

/-- C16. For every stream and every list of names, `sendCDS` performs exactly
one `Send` on the stream, with the request `newCDSRequest` builds for those
names, and returns true if and only if that `Send` reported no error; a failed
`Send` is not retried (it is logged once). -/
theorem sendCDS_sends_once (v2c : v2Client) (stream : adsStream) (clusterName : List String) :
    (sendCDS v2c stream clusterName).stream.sent =
      stream.sent ++ [(newCDSRequest v2c clusterName).2] ∧
    (sendCDS v2c stream clusterName).stream.sent.length = stream.sent.length + 1 ∧
    ((sendCDS v2c stream clusterName).ok = true ↔
      (stream.Send (newCDSRequest v2c clusterName).2).2 = none) ∧
    ((sendCDS v2c stream clusterName).ok = false ↔
      (sendCDS v2c stream clusterName).warnings = 1) := by
  cases h : stream.answer stream.sent (newCDSRequest v2c clusterName).2 with
  | none => simp [sendCDS, adsStream.Send, h]
  | some e => simp [sendCDS, adsStream.Send, h]

/-- C16, at concrete inputs: on a refusing transport `sendCDS` writes the one
request for ["A"] and returns false; on an accepting one it returns true. -/
theorem sendCDS_sends_once_witness :
    (sendCDS (clientWatching ["A"] emptyCache) streamDown ["A"]).stream.sent =
      [{ VersionInfo := "", Node := "node", ResourceNames := ["A"], TypeUrl := clusterURL,
         ResponseNonce := "" }] ∧
    (sendCDS (clientWatching ["A"] emptyCache) streamDown ["A"]).ok = false ∧
    (sendCDS (clientWatching ["A"] emptyCache) streamUp ["A"]).ok = true :=
  ⟨(sendCDS_sends_once (clientWatching ["A"] emptyCache) streamDown ["A"]).1,
    by decide, by decide⟩


/-! ## The cache invariant, order independence and the target index -/

theorem envelope_mem_of_mem_filterMap {rs : List AnyResource} {c : Cluster}
    (h : c ∈ rs.filterMap acceptedCluster) :
    envelope c ∈ rs ∧ (validateCluster (some c)).2 = none := by
  obtain ⟨r, hr, hrc⟩ := List.mem_filterMap.mp h
  obtain ⟨rfl, hv⟩ := acceptedCluster_eq_some hrc
  exact ⟨hr, hv⟩

theorem cdsLoop_done_entries (wi : watchInfo) :
    ∀ (rs : List AnyResource) (ru : cdsUpdate) (lc : cdsCacheMap) (ru2 : cdsUpdate)
      (lc2 : cdsCacheMap),
      cdsLoop wi rs ru lc = .done ru2 lc2 →
      ∀ (name : String) (u : cdsUpdate), lc2 name = some u →
        lc name = some u ∨
          ∃ c ∈ rs.filterMap acceptedCluster, c.Name = name ∧ u = resolvedUpdate c := by
  intro rs
  induction rs with
  | nil =>
    intro ru lc ru2 lc2 h name u hu
    rw [cdsLoop] at h
    cases h
    exact Or.inl hu
  | cons r rest ih =>
    intro ru lc ru2 lc2 h name u hu
    cases hr : acceptedCluster r with
    | none =>
      rcases cdsLoop_rejected wi (r :: rest) ru lc ⟨r, List.mem_cons_self _ _, hr⟩ with
        ⟨e, he⟩ | ⟨_, hf⟩
      · rw [he] at h; cases h
      · rw [hf] at h; cases h
    | some c =>
      cases ht : wi.target with
      | nil =>
        rw [cdsLoop_no_target wi ht r c hr rest ru lc] at h
        cases h
      | cons t0 ts =>
        have h0 : wi.target[0]? = some t0 := by simp [ht]
        rw [cdsLoop_cons_accepted wi t0 h0 r c hr rest ru lc] at h
        have hfm : (r :: rest).filterMap acceptedCluster =
            c :: rest.filterMap acceptedCluster := by
          simp [List.filterMap_cons, hr]
        rw [hfm]
        rcases ih _ _ ru2 lc2 h name u hu with hprev | ⟨d, hd, hdn, hdu⟩
        · simp only [loopStep, cacheSet] at hprev
          split_ifs at hprev with hn
          · simp only [Option.some.injEq] at hprev
            exact Or.inr ⟨c, List.mem_cons_self _ _, hn.symm, hprev.symm⟩
          · exact Or.inl hprev
        · exact Or.inr ⟨d, List.mem_cons_of_mem _ hd, hdn, hdu⟩

theorem handleCDSResponse_cache_entries (v2c : v2Client) (resp : Option DiscoveryResponse) :
    (handleCDSResponse v2c resp).client.cdsCache = v2c.cdsCache ∨
    ∀ (name : String) (u : cdsUpdate),
      (handleCDSResponse v2c resp).client.cdsCache name = some u →
      ∃ c ∈ (DiscoveryResponse.GetResources resp).filterMap acceptedCluster,
        c.Name = name ∧ u = resolvedUpdate c := by
  cases hw : v2c.watchMap .cdsResource with
  | none =>
    left
    simp [handleCDSResponse, hw]
  | some wi =>
    cases hl : cdsLoop wi (DiscoveryResponse.GetResources resp)
        { serviceName := "", doLRS := false } emptyCache with
    | done ru lc =>
      right
      intro name u hu
      rw [(handleCDSResponse_of_done v2c resp wi ru lc hw hl).2.2] at hu
      rcases cdsLoop_done_entries wi _ _ _ ru lc hl name u hu with hprev | hfrom
      · simp [emptyCache] at hprev
      · exact hfrom
    | failed e => exact Or.inl (handleCDSResponse_of_failed v2c resp wi e hw hl).2.2
    | fault => exact Or.inl (handleCDSResponse_of_fault v2c resp wi hw hl).2.2

theorem handleAll_cache_entries :
    ∀ (resps : List (Option DiscoveryResponse)) (v2c : v2Client) (name : String)
      (u : cdsUpdate),
      (handleAll v2c resps).1.cdsCache name = some u →
      v2c.cdsCache name = some u ∨
        ∃ resp ∈ resps,
          ∃ c ∈ (DiscoveryResponse.GetResources resp).filterMap acceptedCluster,
            c.Name = name ∧ u = resolvedUpdate c := by
  intro resps
  induction resps with
  | nil => intro v2c name u hu; exact Or.inl hu
  | cons resp rest ih =>
    intro v2c name u hu
    have hstep : (handleCDSResponse v2c resp).client.cdsCache name = some u →
        v2c.cdsCache name = some u ∨
          ∃ r ∈ resp :: rest,
            ∃ c ∈ (DiscoveryResponse.GetResources r).filterMap acceptedCluster,
              c.Name = name ∧ u = resolvedUpdate c := by
      intro h1
      rcases handleCDSResponse_cache_entries v2c resp with hsame | hfrom
      · rw [hsame] at h1; exact Or.inl h1
      · exact Or.inr ⟨resp, List.mem_cons_self _ _, hfrom name u h1⟩
    rw [handleAll] at hu
    cases hr : (handleCDSResponse v2c resp).ret with
    | panicked =>
      rw [hr] at hu
      exact hstep hu
    | returned e =>
      rw [hr] at hu
      rcases ih _ name u hu with h1 | ⟨r, hrm, hc⟩
      · exact hstep h1
      · exact Or.inr ⟨r, List.mem_cons_of_mem _ hrm, hc⟩

/-- C18. Starting from an empty cache, after any sequence of handler calls
every cache entry (name, update) is the update stored for a cluster that one of
the handled responses carried under that name and that `validateCluster`
accepted: its serviceName is that cluster's configured service name, or the
name itself when none is configured, and its doLRS is the validated one; hence
every entry stored under a non-empty name has a non-empty serviceName. One
call, from any state and with any registry, either keeps the cache as it was
or leaves only entries that come from the clusters of its own response. -/
theorem handleAll_cache_invariant (v2c : v2Client) (resps : List (Option DiscoveryResponse)) :
    (v2c.cdsCache = emptyCache →
      ∀ (name : String) (u : cdsUpdate), (handleAll v2c resps).1.cdsCache name = some u →
        (∃ resp ∈ resps, ∃ c : Cluster,
          envelope c ∈ DiscoveryResponse.GetResources resp ∧
          (validateCluster (some c)).2 = none ∧ c.Name = name ∧
          u.doLRS = (validateCluster (some c)).1.doLRS ∧
          u.serviceName =
            (if EdsClusterConfig.GetServiceName (Cluster.GetEdsClusterConfig (some c)) = ""
             then name
             else EdsClusterConfig.GetServiceName (Cluster.GetEdsClusterConfig (some c))) ∧
          (u.serviceName =
              EdsClusterConfig.GetServiceName (Cluster.GetEdsClusterConfig (some c)) ∨
            u.serviceName = name)) ∧
        (name ≠ "" → u.serviceName ≠ "")) ∧
    (∀ resp : Option DiscoveryResponse,
      (handleCDSResponse v2c resp).client.cdsCache = v2c.cdsCache ∨
      ∀ (name : String) (u : cdsUpdate),
        (handleCDSResponse v2c resp).client.cdsCache name = some u →
        ∃ c : Cluster, envelope c ∈ DiscoveryResponse.GetResources resp ∧
          (validateCluster (some c)).2 = none ∧ c.Name = name ∧ u = resolvedUpdate c) := by
  constructor
  · intro hempty name u hu
    rcases handleAll_cache_entries resps v2c name u hu with h0 | ⟨resp, hresp, c, hc, hn, rfl⟩
    · rw [hempty] at h0
      simp [emptyCache] at h0
    · obtain ⟨henv, hval⟩ := envelope_mem_of_mem_filterMap hc
      have hr := resolvedUpdate_serviceName c hval
      refine ⟨⟨resp, hresp, c, henv, hval, hn, hr.2, ?_, ?_⟩, ?_⟩
      · rw [hr.1, hn]
      · rw [hr.1]
        split_ifs with hs
        · exact Or.inr hn
        · exact Or.inl rfl
      · intro hne
        exact resolvedUpdate_serviceName_ne c hval (by rw [hn]; exact hne)
  · intro resp
    rcases handleCDSResponse_cache_entries v2c resp with hsame | hfrom
    · exact Or.inl hsame
    · right
      intro name u hu
      obtain ⟨c, hc, hn, hcu⟩ := hfrom name u hu
      obtain ⟨henv, hval⟩ := envelope_mem_of_mem_filterMap hc
      exact ⟨c, henv, hval, hn, hcu⟩

/-- C18, at a concrete input: from the empty cache, after a batch with "A" (no
service name) and "B" (service "svc"), a rejected batch and a batch with "C",
the entry under "C" comes from a cluster "C" of a handled response and has the
non-empty serviceName "C". -/
theorem handleAll_cache_invariant_witness :
    (handleAll (clientWatching ["A"] emptyCache)
      [responseOf [envelope (edsCluster "A" "" false), envelope (edsCluster "B" "svc" true)],
       responseOf [envelope (staticCluster "D")],
       responseOf [envelope (edsCluster "C" "" true)]]).1.cdsCache "C" =
      some { serviceName := "C", doLRS := true } ∧
    (∃ resp ∈
        [responseOf [envelope (edsCluster "A" "" false), envelope (edsCluster "B" "svc" true)],
         responseOf [envelope (staticCluster "D")],
         responseOf [envelope (edsCluster "C" "" true)]],
      ∃ c : Cluster, envelope c ∈ DiscoveryResponse.GetResources resp ∧
        (validateCluster (some c)).2 = none ∧ c.Name = "C") ∧
    ("C" ≠ "" → ({ serviceName := "C", doLRS := true } : cdsUpdate).serviceName ≠ "") :=
  have h := (handleAll_cache_invariant (clientWatching ["A"] emptyCache)
    [responseOf [envelope (edsCluster "A" "" false), envelope (edsCluster "B" "svc" true)],
     responseOf [envelope (staticCluster "D")],
     responseOf [envelope (edsCluster "C" "" true)]]).1 rfl "C"
    { serviceName := "C", doLRS := true } (by decide)
  ⟨by decide,
    h.1.elim fun resp hr => ⟨resp, hr.1, hr.2.elim fun c hc => ⟨c, hc.1, hc.2.1, hc.2.2.1⟩⟩,
    h.2⟩

theorem lastNamed_of_mem_nodup {k : String} {cs : List Cluster} {c : Cluster}
    (hnd : (cs.map fun x => x.Name).Nodup) (hc : c ∈ cs) (hk : c.Name = k) :
    lastNamed k cs = some c := by
  cases hl : lastNamed k cs with
  | none => exact absurd hk (lastNamed_eq_none.mp hl c hc)
  | some d =>
    have hd := lastNamed_eq_some hl
    have : d = c := List.inj_on_of_nodup_map hnd hd.1 hc (by rw [hd.2, hk])
    rw [this]

theorem lastNamed_perm {k : String} {cs1 cs2 : List Cluster} (hp : cs1.Perm cs2)
    (hnd : (cs1.map fun x => x.Name).Nodup) : lastNamed k cs1 = lastNamed k cs2 := by
  have hnd2 : (cs2.map fun x => x.Name).Nodup := (hp.map _).nodup_iff.mp hnd
  cases hl : lastNamed k cs2 with
  | none =>
    rw [lastNamed_eq_none] at hl ⊢
    intro c hc
    exact hl c (hp.mem_iff.mp hc)
  | some d =>
    have hd := lastNamed_eq_some hl
    exact lastNamed_of_mem_nodup hnd (hp.mem_iff.mpr hd.1) hd.2

/-- C19. For every registered watch and every all-valid response whose clusters
have pairwise distinct names, every permutation of the batch yields the same
resulting cache, the same effects, hence the same callback arguments (update
and error), and the same return value. -/
theorem handleCDSResponse_order_independent (v2c : v2Client)
    (resp1 resp2 : Option DiscoveryResponse) (wi : watchInfo)
    (hw : v2c.watchMap .cdsResource = some wi)
    (hperm : (DiscoveryResponse.GetResources resp1).Perm (DiscoveryResponse.GetResources resp2))
    (hall : ∀ r ∈ DiscoveryResponse.GetResources resp1, (acceptedCluster r).isSome = true)
    (hdist : (((DiscoveryResponse.GetResources resp1).filterMap acceptedCluster).map
      fun c => c.Name).Nodup) :
    (handleCDSResponse v2c resp1).client.cdsCache =
      (handleCDSResponse v2c resp2).client.cdsCache ∧
    (handleCDSResponse v2c resp1).events = (handleCDSResponse v2c resp2).events ∧
    callbackArgs (handleCDSResponse v2c resp1).events =
      callbackArgs (handleCDSResponse v2c resp2).events ∧
    (handleCDSResponse v2c resp1).ret = (handleCDSResponse v2c resp2).ret := by
  have hall2 : ∀ r ∈ DiscoveryResponse.GetResources resp2,
      (acceptedCluster r).isSome = true := fun r hr => hall r (hperm.mem_iff.mpr hr)
  cases ht : wi.target with
  | nil =>
    cases hrs1 : DiscoveryResponse.GetResources resp1 with
    | nil =>
      have hrs2 : DiscoveryResponse.GetResources resp2 = [] := by
        rw [hrs1] at hperm
        exact List.Perm.nil_eq hperm |>.symm
      have hl1 : cdsLoop wi (DiscoveryResponse.GetResources resp1)
          { serviceName := "", doLRS := false } emptyCache =
          .done { serviceName := "", doLRS := false } emptyCache := by rw [hrs1, cdsLoop]
      have hl2 : cdsLoop wi (DiscoveryResponse.GetResources resp2)
          { serviceName := "", doLRS := false } emptyCache =
          .done { serviceName := "", doLRS := false } emptyCache := by rw [hrs2, cdsLoop]
      obtain ⟨a1, a2, a3⟩ := handleCDSResponse_of_done v2c resp1 wi _ _ hw hl1
      obtain ⟨b1, b2, b3⟩ := handleCDSResponse_of_done v2c resp2 wi _ _ hw hl2
      rw [a1, a2, a3, b1, b2, b3]
      exact ⟨rfl, rfl, rfl, rfl⟩
    | cons r rest =>
      have hf1 : cdsLoop wi (DiscoveryResponse.GetResources resp1)
          { serviceName := "", doLRS := false } emptyCache = .fault := by
        obtain ⟨c, hc⟩ := Option.isSome_iff_exists.mp
          (hall r (by rw [hrs1]; exact List.mem_cons_self _ _))
        rw [hrs1]
        exact cdsLoop_no_target wi ht r c hc rest _ _
      have hf2 : cdsLoop wi (DiscoveryResponse.GetResources resp2)
          { serviceName := "", doLRS := false } emptyCache = .fault := by
        cases hrs2 : DiscoveryResponse.GetResources resp2 with
        | nil =>
          rw [hrs1, hrs2] at hperm
          exact absurd (List.Perm.eq_nil hperm) (by simp)
        | cons r2 rest2 =>
          obtain ⟨c, hc⟩ := Option.isSome_iff_exists.mp
            (hall2 r2 (by rw [hrs2]; exact List.mem_cons_self _ _))
          exact cdsLoop_no_target wi ht r2 c hc rest2 _ _
      obtain ⟨a1, a2, a3⟩ := handleCDSResponse_of_fault v2c resp1 wi hw hf1
      obtain ⟨b1, b2, b3⟩ := handleCDSResponse_of_fault v2c resp2 wi hw hf2
      rw [a1, a2, a3, b1, b2, b3]
      exact ⟨rfl, rfl, rfl, rfl⟩
  | cons t0 ts =>
    have h0 : wi.target[0]? = some t0 := by simp [ht]
    obtain ⟨a1, a2, _, a4⟩ := handleCDSResponse_allAccepted v2c resp1 wi t0 hw h0 hall
    obtain ⟨b1, b2, _, b4⟩ := handleCDSResponse_allAccepted v2c resp2 wi t0 hw h0 hall2
    have hp : ((DiscoveryResponse.GetResources resp1).filterMap acceptedCluster).Perm
        ((DiscoveryResponse.GetResources resp2).filterMap acceptedCluster) :=
      hperm.filterMap _
    have hev : (handleCDSResponse v2c resp1).events = (handleCDSResponse v2c resp2).events := by
      rw [a4, b4, lastNamed_perm hp hdist]
    refine ⟨?_, hev, by rw [hev], by rw [a1, b1]⟩
    funext k
    rw [a2, b2, lastNamed_perm hp hdist]

/-- C19, at a concrete input: the batch of the valid clusters "A", "B", "C" and
its permutation "C", "A", "B" give the same cache and the same effects. -/
theorem handleCDSResponse_order_independent_witness :
    (handleCDSResponse (clientWatching ["B"] staleCache)
      (responseOf [envelope (edsCluster "A" "" false), envelope (edsCluster "B" "svc" true),
        envelope (edsCluster "C" "" false)])).client.cdsCache =
    (handleCDSResponse (clientWatching ["B"] staleCache)
      (responseOf [envelope (edsCluster "C" "" false), envelope (edsCluster "A" "" false),
        envelope (edsCluster "B" "svc" true)])).client.cdsCache ∧
    (handleCDSResponse (clientWatching ["B"] staleCache)
      (responseOf [envelope (edsCluster "A" "" false), envelope (edsCluster "B" "svc" true),
        envelope (edsCluster "C" "" false)])).events =
    (handleCDSResponse (clientWatching ["B"] staleCache)
      (responseOf [envelope (edsCluster "C" "" false), envelope (edsCluster "A" "" false),
        envelope (edsCluster "B" "svc" true)])).events :=
  have h := handleCDSResponse_order_independent (clientWatching ["B"] staleCache)
    (responseOf [envelope (edsCluster "A" "" false), envelope (edsCluster "B" "svc" true),
      envelope (edsCluster "C" "" false)])
    (responseOf [envelope (edsCluster "C" "" false), envelope (edsCluster "A" "" false),
      envelope (edsCluster "B" "svc" true)])
    { target := ["B"], callback := { id := 1 } } (by decide) (by decide) (by decide)
    (by decide)
  ⟨h.1, h.2.1⟩

/-- C20. For a registered watch with a non-empty target list the read of
`wi.target[0]` is in range for every response: the handler never faults. The
precondition is necessary: for a watch registered with an empty target list
and any response whose first envelope is a valid cluster, the index is out of
range and the handler faults before replacing the cache or invoking the
callback. -/
theorem handleCDSResponse_target_index (v2c : v2Client) (wi : watchInfo)
    (hw : v2c.watchMap .cdsResource = some wi) :
    (wi.target ≠ [] →
      ∀ resp : Option DiscoveryResponse, (handleCDSResponse v2c resp).ret ≠ .panicked) ∧
    (wi.target = [] →
      ∀ (resp : Option DiscoveryResponse) (r : AnyResource) (rest : List AnyResource)
        (c : Cluster),
        DiscoveryResponse.GetResources resp = r :: rest → acceptedCluster r = some c →
        (handleCDSResponse v2c resp).ret = .panicked ∧
        (handleCDSResponse v2c resp).client.cdsCache = v2c.cdsCache ∧
        (handleCDSResponse v2c resp).events = []) := by
  constructor
  · intro hne resp
    cases ht : wi.target with
    | nil => exact absurd ht hne
    | cons t0 ts =>
      have h0 : wi.target[0]? = some t0 := by simp [ht]
      cases hl : cdsLoop wi (DiscoveryResponse.GetResources resp)
          { serviceName := "", doLRS := false } emptyCache with
      | done ru lc => rw [(handleCDSResponse_of_done v2c resp wi ru lc hw hl).1]; simp
      | failed e => rw [(handleCDSResponse_of_failed v2c resp wi e hw hl).1]; simp
      | fault => exact absurd hl (cdsLoop_ne_fault wi t0 h0 _ _ _)
  · intro ht resp r rest c hrs hr
    have hf : cdsLoop wi (DiscoveryResponse.GetResources resp)
        { serviceName := "", doLRS := false } emptyCache = .fault := by
      rw [hrs]
      exact cdsLoop_no_target wi ht r c hr rest _ _
    obtain ⟨a1, a2, a3⟩ := handleCDSResponse_of_fault v2c resp wi hw hf
    exact ⟨a1, a3, a2⟩

/-- C20, at concrete inputs: the watch with no target faults on a batch that
starts with the valid cluster "A" and keeps the prior cache; the watch on "A"
does not fault on the same batch. -/
theorem handleCDSResponse_target_index_witness :
    ((handleCDSResponse (clientWatching [] staleCache)
      (responseOf [envelope (edsCluster "A" "" false), .undecodable])).ret = .panicked ∧
     (handleCDSResponse (clientWatching [] staleCache)
      (responseOf [envelope (edsCluster "A" "" false), .undecodable])).client.cdsCache =
        staleCache ∧
     (handleCDSResponse (clientWatching [] staleCache)
      (responseOf [envelope (edsCluster "A" "" false), .undecodable])).events = []) ∧
    (handleCDSResponse (clientWatching ["A"] staleCache)
      (responseOf [envelope (edsCluster "A" "" false), .undecodable])).ret ≠ .panicked :=
  ⟨(handleCDSResponse_target_index (clientWatching [] staleCache)
      { target := [], callback := { id := 1 } } (by decide)).2 rfl
      (responseOf [envelope (edsCluster "A" "" false), .undecodable])
      (envelope (edsCluster "A" "" false)) [.undecodable] (edsCluster "A" "" false)
      (by decide) (by decide),
   (handleCDSResponse_target_index (clientWatching ["A"] staleCache)
      { target := ["A"], callback := { id := 1 } } (by decide)).1 (by decide)
      (responseOf [envelope (edsCluster "A" "" false), .undecodable])⟩

end XdsClient
